import Mathlib

/-!
Verification development for the MCP (Model Context Protocol) supervision
subsystem of this repository: configuration validation, the connection
factory and reconciler, the stdio/SSE transport handlers, and the hub
facade (call/read with timeout, config mutation helpers, reference-counted
disposal).

The TypeScript sources are embedded shallowly: JSON-parsed configuration
objects become structures with `Option` fields (`none` models an absent
key), the mutable connection list becomes explicit state passing over
`List McpConnection`, thrown exceptions become `Except`/`Option` results,
and external I/O (the protocol client's connect and fetch calls) is
abstracted by an explicit `ConnectOutcome` value supplied to the handler.
-/

namespace Mcp

/-- The source of a configuration: global or project scope. -/
inductive ConfigSource where
  | global
  | project
deriving DecidableEq, Repr

/-- Connection status of a live server record. -/
inductive ConnStatus where
  | connecting
  | connected
  | disconnected
deriving DecidableEq, Repr

/-- Tool metadata fetched from a connected server (types.ts `McpTool`). -/
structure McpTool where
  name : String
  description : Option String := none
  alwaysAllow : Option Bool := none
deriving DecidableEq, Repr

/-- Resource metadata fetched from a connected server (types.ts `McpResource`). -/
structure McpResource where
  uri : String
  name : String
deriving DecidableEq, Repr

/-- Resource-template metadata (types.ts `McpResourceTemplate`). -/
structure McpResourceTemplate where
  uriTemplate : String
  name : String
deriving DecidableEq, Repr

/-- One entry of a connection's bounded error history
(`errorHistory` entries pushed by `BaseHandler.appendErrorMessage`). -/
structure ErrorEntry where
  message : String
  timestamp : Nat
  level : String
deriving DecidableEq, Repr

/-- A raw server configuration as read from a JSON settings file, before
validation.  Every field is optional; `none` models an absent JSON key.
JSON values carry no `undefined`, so this is exact for file-sourced data. -/
structure RawConfig where
  type : Option String := none
  command : Option String := none
  args : Option (List String) := none
  cwd : Option String := none
  env : Option (List (String × String)) := none
  url : Option String := none
  headers : Option (List (String × String)) := none
  disabled : Option Bool := none
  timeout : Option Int := none
  alwaysAllow : Option (List String) := none
  watchPaths : Option (List String) := none
deriving DecidableEq, Repr

/-- A validated server configuration (types.ts `ServerConfig` after the
zod schema of config/validation.ts has normalized it: `type` is always
set, and for the stdio shape `cwd` is always set). -/
structure ServerConfig where
  type : String
  command : Option String := none
  args : Option (List String) := none
  cwd : Option String := none
  env : Option (List (String × String)) := none
  url : Option String := none
  headers : Option (List (String × String)) := none
  disabled : Option Bool := none
  timeout : Option Int := none
  alwaysAllow : Option (List String) := none
  watchPaths : Option (List String) := none
deriving DecidableEq, Repr

/-- The stdio branch of the zod union in `createServerConfigSchema`
(config/validation.ts): requires a `command` of length ≥ 1, forbids `url`
and `headers`, accepts `type` only when absent or `"stdio"`, applies the
workspace default to `cwd`, and normalizes `type` to `"stdio"`. -/
def validateStdio (defaultCwd : String) (c : RawConfig) : Option ServerConfig :=
  match c.command with
  | none => none
  | some cmd =>
    if cmd.length < 1 then none
    else if c.url ≠ none then none
    else if c.headers ≠ none then none
    else if c.type = none ∨ c.type = some "stdio" then
      some { type := "stdio"
             command := some cmd
             args := c.args
             cwd := some (c.cwd.getD defaultCwd)
             env := c.env
             url := none
             headers := none
             disabled := c.disabled
             timeout := c.timeout
             alwaysAllow := c.alwaysAllow
             watchPaths := c.watchPaths }
    else none

/-- The SSE branch of the zod union in `createServerConfigSchema`:
requires a `url` passing the URL-format check (the external zod check is
abstracted by the predicate `isValidUrl`), forbids `command`, `args`,
`cwd` and `env`, accepts `type` only when absent or `"sse"`, and
normalizes `type` to `"sse"`. -/
def validateSse (isValidUrl : String → Bool) (c : RawConfig) : Option ServerConfig :=
  match c.url with
  | none => none
  | some u =>
    if ¬ isValidUrl u then none
    else if c.command ≠ none then none
    else if c.args ≠ none then none
    else if c.cwd ≠ none then none
    else if c.env ≠ none then none
    else if c.type = none ∨ c.type = some "sse" then
      some { type := "sse"
             command := none
             args := none
             cwd := none
             env := none
             url := some u
             headers := c.headers
             disabled := c.disabled
             timeout := c.timeout
             alwaysAllow := c.alwaysAllow
             watchPaths := c.watchPaths }
    else none

/-- `validateServerConfig` of config/validation.ts: a `z.union` that tries
the stdio shape first, then the SSE shape; `none` models a thrown
`ZodError`. -/
def validateServerConfig (isValidUrl : String → Bool) (defaultCwd : String)
    (c : RawConfig) : Option ServerConfig :=
  match validateStdio defaultCwd c with
  | some v => some v
  | none => validateSse isValidUrl c

/-- A live server record (types.ts `McpServer`); `config` holds the
stored configuration snapshot (the source serializes it with
`JSON.stringify`; the JSON round-trip is the identity on validated
configurations, so the snapshot is kept as a value). -/
structure McpServer where
  name : String
  config : ServerConfig
  status : ConnStatus
  disabled : Option Bool := none
  source : ConfigSource
  error : Option String := none
  tools : List McpTool := []
  resources : List McpResource := []
  resourceTemplates : List McpResourceTemplate := []
  errorHistory : List ErrorEntry := []
deriving DecidableEq, Repr

/-- A live connection record: the server record paired with the protocol
client and transport handles.  The handles are external capabilities with
no observable state of their own, so only the server record is kept. -/
structure McpConnection where
  server : McpServer
deriving DecidableEq, Repr

/-- `MAX_ERROR_LENGTH` from `BaseHandler.appendErrorMessage`. -/
def MAX_ERROR_LENGTH : Nat := 1000

/-- The truncation marker appended by `BaseHandler.appendErrorMessage`. -/
def truncationMarker : String := "...(error message truncated)"

/-- The truncation step of `BaseHandler.appendErrorMessage`:
`error.substring(0, 1000) + "...(error message truncated)"` when the
message exceeds 1000 characters, the message unchanged otherwise. -/
def truncateError (error : String) : String :=
  if error.length > MAX_ERROR_LENGTH then
    String.mk (error.data.take MAX_ERROR_LENGTH) ++ truncationMarker
  else error

/-- The retention step of `BaseHandler.appendErrorMessage`: keep only the
last 100 entries (`errorHistory.slice(-100)` when the length exceeds 100). -/
def capHistory (history : List ErrorEntry) : List ErrorEntry :=
  if history.length > 100 then history.drop (history.length - 100) else history

/-- `BaseHandler.appendErrorMessage` (McpHub.ts): truncate the message,
push it onto `errorHistory` with a timestamp and level, keep only the
last 100 entries, and set the current `error` field. -/
def appendErrorMessage (server : McpServer) (error : String) (level : String)
    (now : Nat) : McpServer :=
  { server with
    errorHistory := capHistory (server.errorHistory ++ [⟨truncateError error, now, level⟩])
    error := some (truncateError error) }

/-- The outcome of the external protocol client's connect-and-fetch
sequence, which the handlers race: either `client.connect` succeeded and
the three capability fetches returned the given lists (each fetch is
independently best-effort in the source and yields `[]` on its own
failure, which is absorbed into the lists here), or `client.connect`
threw with the given message. -/
inductive ConnectOutcome where
  | success (tools : List McpTool) (resources : List McpResource)
      (resourceTemplates : List McpResourceTemplate)
  | failure (errMsg : String)
deriving DecidableEq, Repr

/-- `StdioHandler.createConnection`: fails fast when `config.command` is
falsy (absent or empty); otherwise builds the record in `connecting`
status and, depending on the connect outcome, either marks it
`connected` with the fetched lists or marks it `disconnected` and
appends the error to the history — returning the record in both cases.
`now` is the timestamp `Date.now()` would supply. -/
def StdioHandler.createConnection (name : String) (config : ServerConfig)
    (source : ConfigSource) (outcome : ConnectOutcome) (now : Nat) :
    Except String McpConnection :=
  if config.command.getD "" = "" then
    .error ("Server \"" ++ name ++ "\" of type \"stdio\" must have a \"command\" property")
  else
    let server : McpServer :=
      { name := name
        config := config
        status := .connecting
        disabled := config.disabled
        source := source
        errorHistory := [] }
    match outcome with
    | .success tools resources resourceTemplates =>
        .ok { server := { server with
                          status := .connected
                          tools := tools
                          resources := resources
                          resourceTemplates := resourceTemplates } }
    | .failure errMsg =>
        .ok { server := appendErrorMessage { server with status := .disconnected }
                          errMsg "error" now }

/-- `SseHandler.createConnection`: fails fast when `config.url` is falsy;
otherwise builds the record in `connecting` status and either marks it
`connected` with the fetched lists or marks it `disconnected` with the
error message (this handler records no history). -/
def SseHandler.createConnection (name : String) (config : ServerConfig)
    (source : ConfigSource) (outcome : ConnectOutcome) :
    Except String McpConnection :=
  if config.url.getD "" = "" then
    .error ("Server \"" ++ name ++ "\" of type \"sse\" must have a \"url\" property")
  else
    let server : McpServer :=
      { name := name
        config := config
        status := .connecting
        disabled := config.disabled
        source := source }
    match outcome with
    | .success tools resources resourceTemplates =>
        .ok { server := { server with
                          status := .connected
                          tools := tools
                          resources := resources
                          resourceTemplates := resourceTemplates } }
    | .failure errMsg =>
        .ok { server := { server with
                          status := .disconnected
                          error := some errMsg } }

/-- The name/optional-source match used by `McpHub.executeServerAction`,
`ConnectionManager.getConnection` and `ConnectionFactory.findConnections`:
`s.name === serverName && (!source || s.source === source)`. -/
def serverMatches (serverName : String) (source? : Option ConfigSource) (s : McpServer) : Bool :=
  s.name == serverName &&
    (match source? with
     | none => true
     | some src => decide (s.source = src))

/-- The exact-key match `conn.server.name === name && conn.server.source === source`
used by `ConnectionFactory.createConnection` (duplicate removal),
`getConnectionByServer` and the reconciler's existing-connection lookup. -/
def connMatches (serverName : String) (source : ConfigSource) (c : McpConnection) : Bool :=
  c.server.name == serverName && decide (c.server.source = source)

/-- Observable connection-lifecycle effects of a factory operation: a
handler `closeConnection` call on, or a handler-created connection for,
the given (name, source) key. -/
inductive FactoryEvent where
  | closed (name : String) (source : ConfigSource)
  | created (name : String) (source : ConfigSource)
deriving DecidableEq, Repr

/-- The type-inference patch at the top of `ConnectionFactory.createConnection`:
when `type` is falsy, infer `"stdio"` from a truthy `command`, else `"sse"`
from a truthy `url`. -/
def patchType (config : ServerConfig) : ServerConfig :=
  if config.type ≠ "" then config
  else if config.command.getD "" ≠ "" then { config with type := "stdio" }
  else if config.url.getD "" ≠ "" then { config with type := "sse" }
  else config

/-- The two handlers registered with the factory in the `McpHub`
constructor (`StdioHandler`, `SseHandler`). -/
inductive HandlerKind where
  | stdio
  | sse
deriving DecidableEq, Repr

/-- `ConnectionFactory.getHandlerForType`: first registered handler whose
`supports(type)` is true; `StdioHandler.supports` is `type === "stdio"`,
`SseHandler.supports` is `type === "sse"`. -/
def getHandlerForType (t : String) : Option HandlerKind :=
  if t = "stdio" then some .stdio
  else if t = "sse" then some .sse
  else none

/-- Dispatch of `handler.createConnection` for the registered handlers. -/
def handlerCreateConnection (kind : HandlerKind) (name : String) (config : ServerConfig)
    (source : ConfigSource) (outcome : ConnectOutcome) (now : Nat) :
    Except String McpConnection :=
  match kind with
  | .stdio => StdioHandler.createConnection name config source outcome now
  | .sse => SseHandler.createConnection name config source outcome

/-- `ConnectionFactory.createConnection`: patch the type, locate a
handler (error `"Unsupported connection type"` if none), let the handler
build the connection, then remove any existing record with the same
(name, source) before appending the new one.  The file-watcher arming
step touches no connection state and is omitted. -/
def factoryCreateConnection (conns : List McpConnection) (name : String)
    (config : ServerConfig) (source : ConfigSource) (outcome : ConnectOutcome)
    (now : Nat) : Except String (List McpConnection × List FactoryEvent) :=
  let patchedConfig := patchType config
  match getHandlerForType patchedConfig.type with
  | none => .error ("Unsupported connection type: " ++ patchedConfig.type)
  | some handler =>
    match handlerCreateConnection handler name patchedConfig source outcome now with
    | .error e => .error e
    | .ok connection =>
      .ok ((conns.filter (fun c => !(connMatches name source c))) ++ [connection],
           [.created name source])

/-- `ConnectionFactory.closeConnection`: close every record matching the
name (optionally restricted to one source) via its handler — recorded as
`closed` events — and remove the matching records unless `allowKeep`. -/
def factoryCloseConnection (conns : List McpConnection) (name : String)
    (source? : Option ConfigSource) (allowKeep : Bool) :
    List McpConnection × List FactoryEvent :=
  let matched := conns.filter (fun c => serverMatches name source? c.server)
  let events := matched.map (fun c => FactoryEvent.closed c.server.name c.server.source)
  let remaining :=
    if allowKeep then conns
    else conns.filter (fun c => !(serverMatches name source? c.server))
  (remaining, events)

/-- `stripNonConnectionFields` inside
`ConnectionManager.updateServerConnections`: drop `alwaysAllow` and
`timeout` before the deep structural comparison. -/
def stripNonConnectionFields (config : ServerConfig) : ServerConfig :=
  { config with alwaysAllow := none, timeout := none }

/-- Truthiness of `config.disabled`. -/
def isDisabledCfg (config : ServerConfig) : Bool := config.disabled.getD false

/-- The per-entry body of the second loop of
`ConnectionManager.updateServerConnections` (inside its try/catch, so a
validation failure or a handler throw leaves the state as it was at the
failure point and continues): validate; if a live record with this
(name, source) exists, compare the connection-relevant subsets — on a
difference close and, unless the new config is disabled, recreate; on
equality patch every matching record's stored config in place; with no
live record, create unless disabled. -/
def processEntry (isValidUrl : String → Bool) (defaultCwd : String)
    (outcome : String → ConfigSource → ConnectOutcome) (now : Nat)
    (source : ConfigSource) (serverName : String) (raw : RawConfig)
    (conns : List McpConnection) : List McpConnection × List FactoryEvent :=
  match validateServerConfig isValidUrl defaultCwd raw with
  | none => (conns, [])
  | some validatedConfig =>
    match conns.find? (connMatches serverName source) with
    | some existing =>
      if stripNonConnectionFields existing.server.config ≠
          stripNonConnectionFields validatedConfig then
        let closed := factoryCloseConnection conns serverName (some source) false
        if isDisabledCfg validatedConfig then closed
        else
          match factoryCreateConnection closed.1 serverName validatedConfig source
              (outcome serverName source) now with
          | .ok (conns', evs') => (conns', closed.2 ++ evs')
          | .error _ => closed
      else
        (conns.map (fun c =>
           if connMatches serverName source c then
             { c with server := { c.server with config := validatedConfig } }
           else c),
         [])
    | none =>
      if isDisabledCfg validatedConfig then (conns, [])
      else
        match factoryCreateConnection conns serverName validatedConfig source
            (outcome serverName source) now with
        | .ok (conns', evs') => (conns', evs')
        | .error _ => (conns, [])

/-- The first loop of `ConnectionManager.updateServerConnections`: close
the connection of every currently-live name (for this source) that is
absent from the new config's keys. -/
def closeDeletedLoop (configServers : List String) (source : ConfigSource) :
    List String → List McpConnection → List McpConnection × List FactoryEvent
  | [], conns => (conns, [])
  | n :: rest, conns =>
    if configServers.contains n then closeDeletedLoop configServers source rest conns
    else
      let closed := factoryCloseConnection conns n (some source) false
      let r := closeDeletedLoop configServers source rest closed.1
      (r.1, closed.2 ++ r.2)

/-- The second loop of `ConnectionManager.updateServerConnections`:
process each config entry in order with `processEntry`. -/
def updateEntriesLoop (isValidUrl : String → Bool) (defaultCwd : String)
    (outcome : String → ConfigSource → ConnectOutcome) (now : Nat)
    (source : ConfigSource) :
    List (String × RawConfig) → List McpConnection →
      List McpConnection × List FactoryEvent
  | [], conns => (conns, [])
  | (n, raw) :: rest, conns =>
    let done := processEntry isValidUrl defaultCwd outcome now source n raw conns
    let r := updateEntriesLoop isValidUrl defaultCwd outcome now source rest done.1
    (r.1, done.2 ++ r.2)

/-- `ConnectionManager.updateServerConnections(configs, source)`: compute
the currently-live names for the source and the desired names from the
config map (its keys are unique, being JSON object keys), close the
deleted ones, then update or create per entry. -/
def updateServerConnections (isValidUrl : String → Bool) (defaultCwd : String)
    (outcome : String → ConfigSource → ConnectOutcome) (now : Nat)
    (conns : List McpConnection) (configs : List (String × RawConfig))
    (source : ConfigSource) : List McpConnection × List FactoryEvent :=
  let currentServers :=
    (conns.filter (fun c => decide (c.server.source = source))).map (fun c => c.server.name)
  let configServers := configs.map Prod.fst
  let closedPass := closeDeletedLoop configServers source currentServers conns
  let updatePass := updateEntriesLoop isValidUrl defaultCwd outcome now source configs closedPass.1
  (updatePass.1, closedPass.2 ++ updatePass.2)

/-- `ConnectionFactory.getAllServers` / `ConnectionManager.getAllServers`. -/
def getAllServers (conns : List McpConnection) : List McpServer :=
  conns.map (·.server)

/-- `ConnectionFactory.getActiveServers` (servers whose `disabled` is falsy). -/
def getActiveServers (conns : List McpConnection) : List McpServer :=
  (conns.filter (fun c => !(c.server.disabled.getD false))).map (·.server)

/-- `McpHub.executeServerAction`: look the server up in
`getAllServers()`; fail with `"Server not found: X"` when no entry
matches, or with a disabled error when the matched entry is disabled;
otherwise resolve the connection (`ConnectionManager.getConnection`,
which re-finds by the matched server's exact key) and hand it to the
action.  A `.error` result means the action — the protocol client call —
was never invoked. -/
def executeServerAction (conns : List McpConnection) (serverName : String)
    (source? : Option ConfigSource) : Except String McpConnection :=
  match (getAllServers conns).find? (serverMatches serverName source?) with
  | none => .error ("Server not found: " ++ serverName)
  | some server =>
    if server.disabled.getD false then
      .error ("Server \"" ++ serverName ++ "\" is disabled")
    else
      match conns.find? (fun c =>
          c.server.name == server.name && decide (c.server.source = server.source)) with
      | none => .error ("No connection found for server: " ++ serverName)
      | some conn => .ok conn

/-- `McpHub.prepareServerOperation`: the deadline (in seconds) for the
timeout race, `config.timeout || 60` on the connection's stored config —
a falsy stored timeout (absent or `0`) yields the 60-second default. -/
def prepareServerOperation (conn : McpConnection) : Int :=
  match conn.server.config.timeout with
  | none => 60
  | some t => if t = 0 then 60 else t

/-- `McpHub.callTool`: resolve the connection via `executeServerAction`,
then race `connection.client.callTool` against
`createTimeoutPromise(timeout, ...)`.  The `.ok` payload is the resolved
connection together with the deadline in seconds the client call is
raced against; `.error` means the client was never invoked. -/
def callTool (conns : List McpConnection) (serverName : String) (_toolName : String)
    (source? : Option ConfigSource) : Except String (McpConnection × Int) :=
  (executeServerAction conns serverName source?).map
    (fun conn => (conn, prepareServerOperation conn))

/-- `McpHub.readResource`: same resolution and timeout race as `callTool`,
around `connection.client.readResource`. -/
def readResource (conns : List McpConnection) (serverName : String) (_uri : String)
    (source? : Option ConfigSource) : Except String (McpConnection × Int) :=
  (executeServerAction conns serverName source?).map
    (fun conn => (conn, prepareServerOperation conn))

/-- The range check at the top of `McpHub.updateServerTimeout`:
`timeout < 0 || timeout > 3600`. -/
def timeoutOutOfRange (timeout : Int) : Bool :=
  timeout < 0 || timeout > 3600

/-- Read-modify-write of one entry of a configuration file's server map
(`config[serverName] = serverConfig` in `ConfigManager.updateServerConfig`). -/
def setConfigEntry (configs : List (String × RawConfig)) (name : String)
    (cfg : RawConfig) : List (String × RawConfig) :=
  if configs.any (fun p => p.1 == name) then
    configs.map (fun p => if p.1 == name then (name, cfg) else p)
  else configs ++ [(name, cfg)]

/-- `McpHub.updateServerTimeout` followed by
`ConfigManager.updateServerConfig` on the resolved source's file: reject
an out-of-range timeout before anything else; otherwise merge
`{ timeout }` into the stored raw entry, re-validate the merged config
(a validation failure throws before the write), and persist the updated
map.  The result pairs the list of file writes performed with the thrown
error, if any; the subsequent reconciliation and broadcast perform no
further configuration-file writes and are omitted. -/
def updateServerTimeout (isValidUrl : String → Bool) (defaultCwd : String)
    (fileConfigs : List (String × RawConfig)) (serverName : String)
    (timeout : Int) : List (List (String × RawConfig)) × Option String :=
  if timeoutOutOfRange timeout then
    ([], some ("Timeout must be between 0 and 3600 seconds, got " ++ toString timeout))
  else
    let existing := ((fileConfigs.find? (fun p => p.1 == serverName)).map Prod.snd).getD {}
    let merged := { existing with timeout := some timeout }
    match validateServerConfig isValidUrl defaultCwd merged with
    | none => ([], some "Invalid MCP settings format")
    | some _ => ([setConfigEntry fileConfigs serverName merged], none)

/-- `McpHub.deleteServer(serverName, source)` against the resolved
source's configuration file and the live connection list:
`ConfigManager.deleteServerConfig` fails when the name is absent,
otherwise removes the entry, persists, and synchronously notifies the
hub's config-change listener — which reconciles against the remaining
map — after which `deleteServer` itself calls
`updateServerConnections({}, serverSource)`.  Returns the remaining file
map, the final connection list, and the lifecycle events of both
reconciliation passes. -/
def deleteServer (isValidUrl : String → Bool) (defaultCwd : String)
    (outcome : String → ConfigSource → ConnectOutcome) (now : Nat)
    (fileConfigs : List (String × RawConfig)) (conns : List McpConnection)
    (serverName : String) (source? : Option ConfigSource) :
    Except String (List (String × RawConfig) × List McpConnection × List FactoryEvent) :=
  let serverSource := source?.getD .global
  if (fileConfigs.find? (fun p => p.1 == serverName)).isNone then
    .error ("Server not found in MCP configuration: " ++ serverName)
  else
    let remaining := fileConfigs.filter (fun p => p.1 != serverName)
    let pass1 := updateServerConnections isValidUrl defaultCwd outcome now conns remaining serverSource
    let pass2 := updateServerConnections isValidUrl defaultCwd outcome now pass1.1 [] serverSource
    .ok (remaining, pass2.1, pass1.2 ++ pass2.2)

/-- The disposal-relevant state of `McpHub`: the client reference count,
the `isDisposed` latch, and a counter of completed teardowns (each
completed `dispose` run closes every connection and watcher once). -/
structure HubState where
  refCount : Int
  isDisposed : Bool
  disposeRuns : Nat
deriving DecidableEq, Repr

/-- `McpHub.registerClient`: increment the reference count. -/
def registerClient (s : HubState) : HubState :=
  { s with refCount := s.refCount + 1 }

/-- `McpHub.dispose`: return immediately when already disposed, or while
clients remain registered; otherwise latch `isDisposed` and tear down. -/
def disposeHub (s : HubState) : HubState :=
  if s.isDisposed then s
  else if s.refCount > 0 then s
  else { s with isDisposed := true, disposeRuns := s.disposeRuns + 1 }

/-- `McpHub.unregisterClient`: decrement the reference count and dispose
when it has reached zero or below. -/
def unregisterClient (s : HubState) : HubState :=
  let s' := { s with refCount := s.refCount - 1 }
  if s'.refCount ≤ 0 then disposeHub s' else s'

/-- Two live records share their identity key. -/
def sameKey (a b : McpConnection) : Prop :=
  a.server.name = b.server.name ∧ a.server.source = b.server.source

/-- The one-record-per-(name, source) invariant on the factory's live list. -/
def uniqueKey (conns : List McpConnection) : Prop :=
  conns.Pairwise (fun a b => ¬ sameKey a b)

/-- One public operation on the factory's live connection list. -/
inductive FactoryOp where
  | create (name : String) (config : ServerConfig) (source : ConfigSource)
      (outcome : ConnectOutcome)
  | close (name : String) (source? : Option ConfigSource) (allowKeep : Bool)
  | update (configs : List (String × RawConfig)) (source : ConfigSource)

/-- Effect of one factory operation on the live list (a thrown
`createConnection` leaves the list unchanged). -/
def applyOp (isValidUrl : String → Bool) (defaultCwd : String)
    (outcomes : String → ConfigSource → ConnectOutcome) (now : Nat)
    (conns : List McpConnection) : FactoryOp → List McpConnection
  | .create name config source outcome =>
    match factoryCreateConnection conns name config source outcome now with
    | .ok (conns', _) => conns'
    | .error _ => conns
  | .close name source? allowKeep => (factoryCloseConnection conns name source? allowKeep).1
  | .update configs source =>
    (updateServerConnections isValidUrl defaultCwd outcomes now conns configs source).1

/-- Effect of a sequence of factory operations. -/
def applyOps (isValidUrl : String → Bool) (defaultCwd : String)
    (outcomes : String → ConfigSource → ConnectOutcome) (now : Nat)
    (conns : List McpConnection) (ops : List FactoryOp) : List McpConnection :=
  ops.foldl (applyOp isValidUrl defaultCwd outcomes now) conns

instance (a b : McpConnection) : Decidable (sameKey a b) := by
  unfold sameKey; infer_instance

instance (conns : List McpConnection) : Decidable (uniqueKey conns) := by
  unfold uniqueKey; exact List.instDecidablePairwise conns

end Mcp

/-! General list lemmas used by the frame and invariant proofs. -/

theorem filter_sub_frame {α : Type} (p q : α → Bool) (l : List α)
    (h : ∀ a, p a = true → q a = true) :
    (l.filter q).filter p = l.filter p := by
  induction l with
  | nil => rfl
  | cons a t ih =>
    cases hq : q a with
    | true => simp [List.filter_cons, hq, ih]
    | false =>
      have hp : p a = false := by
        cases hpa : p a
        · rfl
        · rw [h a hpa] at hq; cases hq
      simp [List.filter_cons, hq, hp, ih]

theorem filter_map_comm {α : Type} (f : α → α) (p : α → Bool) (l : List α)
    (h : ∀ a, p (f a) = p a) :
    (l.map f).filter p = (l.filter p).map f := by
  induction l with
  | nil => rfl
  | cons a t ih =>
    cases hpa : p a with
    | true => simp [List.filter_cons, h a, hpa, ih]
    | false => simp [List.filter_cons, h a, hpa, ih]

theorem find?_of_filter_eq_singleton {α : Type} (p : α → Bool) (l : List α) (x : α)
    (h : l.filter p = [x]) : l.find? p = some x := by
  induction l with
  | nil => simp at h
  | cons a t ih =>
    cases hpa : p a with
    | false =>
      rw [List.filter_cons_of_neg (by simp [hpa])] at h
      rw [List.find?_cons_of_neg _ (by simp [hpa])]
      exact ih h
    | true =>
      rw [List.filter_cons_of_pos (by simp [hpa])] at h
      injection h with h1 _
      rw [List.find?_cons_of_pos _ (by simp [hpa]), h1]

namespace Mcp

theorem connMatches_iff (n : String) (src : ConfigSource) (c : McpConnection) :
    connMatches n src c = true ↔ (c.server.name = n ∧ c.server.source = src) := by
  simp [connMatches]

theorem serverMatches_some_iff (n : String) (src : ConfigSource) (s : McpServer) :
    serverMatches n (some src) s = true ↔ (s.name = n ∧ s.source = src) := by
  simp [serverMatches]

theorem filter_key_singleton (n : String) (src : ConfigSource)
    (conns : List McpConnection) (ex : McpConnection)
    (hu : uniqueKey conns) (hmem : ex ∈ conns)
    (hn : ex.server.name = n) (hs : ex.server.source = src) :
    conns.filter (connMatches n src) = [ex] := by
  induction conns with
  | nil => cases hmem
  | cons a t ih =>
    have hpw := (List.pairwise_cons.mp hu)
    rcases List.mem_cons.mp hmem with rfl | hmt
    · rw [List.filter_cons_of_pos (by simp [connMatches_iff, hn, hs])]
      have : t.filter (connMatches n src) = [] := by
        rw [List.filter_eq_nil_iff]
        intro b hb hmatch
        have hsk : sameKey ex b := by
          have := (connMatches_iff n src b).mp hmatch
          exact ⟨by rw [hn, this.1], by rw [hs, this.2]⟩
        exact hpw.1 b hb hsk
      rw [this]
    · have hna : connMatches n src a = false := by
        cases hca : connMatches n src a
        · rfl
        · exfalso
          have := (connMatches_iff n src a).mp hca
          exact hpw.1 ex hmt ⟨by rw [this.1, hn], by rw [this.2, hs]⟩
      rw [List.filter_cons_of_neg (by simp [hna])]
      exact ih hpw.2 hmt

end Mcp

namespace Mcp

/-- C9: McpHub disposal is reference-counted and idempotent: dispose is a
no-op while the registered client count is positive, a second dispose
call after a completed disposal is a no-op, and unregisterClient (called
by a registered client, so the count is at least one) triggers a
teardown run exactly when the count returns to zero. -/
theorem hub_disposal_refcount (s₁ s₂ s₃ : HubState)
    (h₁ : s₁.refCount > 0)
    (h₂ : s₂.isDisposed = true)
    (h₃ : s₃.isDisposed = false) (h₃r : s₃.refCount ≥ 1) :
    disposeHub s₁ = s₁ ∧
    disposeHub s₂ = s₂ ∧
    ((unregisterClient s₃).disposeRuns = s₃.disposeRuns + 1 ↔ s₃.refCount = 1) := by
  obtain ⟨rc₁, dis₁, runs₁⟩ := s₁
  obtain ⟨rc₂, dis₂, runs₂⟩ := s₂
  obtain ⟨rc₃, dis₃, runs₃⟩ := s₃
  simp only at h₁ h₂ h₃ h₃r
  subst h₂; subst h₃
  refine ⟨?_, ?_, ?_⟩
  · cases dis₁ with
    | true => rfl
    | false =>
      unfold disposeHub
      rw [if_neg (by simp), if_pos h₁]
  · rfl
  · unfold unregisterClient disposeHub
    dsimp only
    by_cases hrc : rc₃ = 1
    · subst hrc
      simp
    · rw [if_neg (by omega)]
      dsimp only
      constructor
      · intro h; omega
      · intro h; omega

/-- Witness for C9 at a concrete hub state. -/
theorem hub_disposal_refcount_witness :
    disposeHub ⟨2, false, 0⟩ = ⟨2, false, 0⟩ ∧
    disposeHub ⟨0, true, 1⟩ = ⟨0, true, 1⟩ ∧
    ((unregisterClient ⟨1, false, 0⟩).disposeRuns = (0 : Nat) + 1 ↔ (1 : Int) = 1) :=
  hub_disposal_refcount ⟨2, false, 0⟩ ⟨0, true, 1⟩ ⟨1, false, 0⟩
    (by decide) (by decide) (by decide) (by decide)

/-- If `callTool` resolves, the deadline in the `.ok` payload is
`prepareServerOperation` of the resolved connection. -/
theorem callTool_ok_deadline (conns : List McpConnection) (n tool : String)
    (src? : Option ConfigSource) (c : McpConnection) (d : Int)
    (h : callTool conns n tool src? = .ok (c, d)) :
    d = prepareServerOperation c := by
  unfold callTool at h
  cases hex : executeServerAction conns n src? with
  | error e => rw [hex] at h; cases h
  | ok conn =>
    rw [hex] at h
    simp [Except.map] at h
    obtain ⟨h1, h2⟩ := h
    subst h1; subst h2; rfl

/-- Same for `readResource`. -/
theorem readResource_ok_deadline (conns : List McpConnection) (n uri : String)
    (src? : Option ConfigSource) (c : McpConnection) (d : Int)
    (h : readResource conns n uri src? = .ok (c, d)) :
    d = prepareServerOperation c := by
  unfold readResource at h
  cases hex : executeServerAction conns n src? with
  | error e => rw [hex] at h; cases h
  | ok conn =>
    rw [hex] at h
    simp [Except.map] at h
    obtain ⟨h1, h2⟩ := h
    subst h1; subst h2; rfl

/-- C10: the deadline `callTool` and `readResource` race the protocol
call against equals the connection's stored timeout when that value is
non-zero, and 60 seconds otherwise; in particular a stored timeout of
exactly 0 — which the `updateServerTimeout` range check accepts — is
replaced by the 60-second default rather than used as a zero deadline. -/
theorem timeout_deadline_default
    (conns₁ conns₂ conns₃ conns₄ : List McpConnection)
    (n₁ n₂ n₃ n₄ tool₁ tool₂ tool₃ uri₄ : String)
    (src₁ src₂ src₃ src₄ : Option ConfigSource)
    (c₁ c₂ c₃ c₄ : McpConnection) (d₁ d₂ d₃ d₄ tv : Int)
    (h₁ : callTool conns₁ n₁ tool₁ src₁ = .ok (c₁, d₁))
    (hz : c₁.server.config.timeout = some 0)
    (h₂ : callTool conns₂ n₂ tool₂ src₂ = .ok (c₂, d₂))
    (hn : c₂.server.config.timeout = none)
    (h₃ : callTool conns₃ n₃ tool₃ src₃ = .ok (c₃, d₃))
    (ht : c₃.server.config.timeout = some tv) (htnz : tv ≠ 0)
    (h₄ : readResource conns₄ n₄ uri₄ src₄ = .ok (c₄, d₄))
    (hz₄ : c₄.server.config.timeout = some 0) :
    d₁ = 60 ∧ d₂ = 60 ∧ d₃ = tv ∧ d₄ = 60 ∧ timeoutOutOfRange 0 = false := by
  refine ⟨?_, ?_, ?_, ?_, by decide⟩
  · rw [callTool_ok_deadline conns₁ n₁ tool₁ src₁ c₁ d₁ h₁]
    unfold prepareServerOperation
    rw [hz]; rfl
  · rw [callTool_ok_deadline conns₂ n₂ tool₂ src₂ c₂ d₂ h₂]
    unfold prepareServerOperation
    rw [hn]
  · rw [callTool_ok_deadline conns₃ n₃ tool₃ src₃ c₃ d₃ h₃]
    unfold prepareServerOperation
    rw [ht]
    simp [htnz]
  · rw [readResource_ok_deadline conns₄ n₄ uri₄ src₄ c₄ d₄ h₄]
    unfold prepareServerOperation
    rw [hz₄]; rfl

end Mcp

namespace Mcp

/-- With no entry of `getAllServers()` matching, `executeServerAction`
fails with the not-found error (and never reaches the action). -/
theorem executeServerAction_notFound (conns : List McpConnection) (n : String)
    (src? : Option ConfigSource)
    (h : ∀ s ∈ getAllServers conns, serverMatches n src? s = false) :
    executeServerAction conns n src? = .error ("Server not found: " ++ n) := by
  unfold executeServerAction
  have hnone : (getAllServers conns).find? (serverMatches n src?) = none := by
    rw [List.find?_eq_none]
    intro s hs
    rw [h s hs]
    exact fun hc => nomatch hc
  rw [hnone]

/-- With every matching entry disabled (and at least one present),
`executeServerAction` fails with the disabled error. -/
theorem executeServerAction_disabled (conns : List McpConnection) (n : String)
    (src? : Option ConfigSource) (s₀ : McpServer)
    (hmem : s₀ ∈ getAllServers conns)
    (hm : serverMatches n src? s₀ = true)
    (hdis : ∀ s ∈ getAllServers conns, serverMatches n src? s = true →
      s.disabled = some true) :
    executeServerAction conns n src? = .error ("Server \"" ++ n ++ "\" is disabled") := by
  unfold executeServerAction
  cases hfind : (getAllServers conns).find? (serverMatches n src?) with
  | none =>
    exfalso
    rw [List.find?_eq_none] at hfind
    have := hfind s₀ hmem
    rw [hm] at this
    exact this rfl
  | some s =>
    have hps := List.find?_some hfind
    have hsmem := List.mem_of_find?_eq_some hfind
    simp [hdis s hsmem hps]

/-- C3: for a server name with no matching entry in the live server list
(for the requested source), `callTool` and `readResource` fail with
"Server not found: X"; for a name whose matching entry (unique per key
once a source is given) is disabled, they fail with the disabled error.
In this embedding a `.error` result is produced before the `.ok` payload
that carries the protocol-client invocation, so neither path invokes the
underlying client. -/
theorem callTool_unknown_or_disabled (conns₁ conns₂ : List McpConnection)
    (name₁ name₂ tool uri : String) (src₁ src₂ : Option ConfigSource)
    (habs : ∀ s ∈ getAllServers conns₁, serverMatches name₁ src₁ s = false)
    (s₀ : McpServer) (hmem : s₀ ∈ getAllServers conns₂)
    (hm : serverMatches name₂ src₂ s₀ = true)
    (hdis : ∀ s ∈ getAllServers conns₂, serverMatches name₂ src₂ s = true →
      s.disabled = some true) :
    callTool conns₁ name₁ tool src₁ = .error ("Server not found: " ++ name₁) ∧
    readResource conns₁ name₁ uri src₁ = .error ("Server not found: " ++ name₁) ∧
    callTool conns₂ name₂ tool src₂ = .error ("Server \"" ++ name₂ ++ "\" is disabled") ∧
    readResource conns₂ name₂ uri src₂ = .error ("Server \"" ++ name₂ ++ "\" is disabled") := by
  refine ⟨?_, ?_, ?_, ?_⟩
  · unfold callTool
    rw [executeServerAction_notFound conns₁ name₁ src₁ habs]
    rfl
  · unfold readResource
    rw [executeServerAction_notFound conns₁ name₁ src₁ habs]
    rfl
  · unfold callTool
    rw [executeServerAction_disabled conns₂ name₂ src₂ s₀ hmem hm hdis]
    rfl
  · unfold readResource
    rw [executeServerAction_disabled conns₂ name₂ src₂ s₀ hmem hm hdis]
    rfl

/-- Concrete connection used by the C3 witness. -/
def w3conn : McpConnection :=
  { server := { name := "b", config := { type := "stdio", command := some "run" }
                status := .connected, disabled := some true, source := .global } }

/-- Witness for C3: a one-server list where `"a"` is unknown and `"b"`
is disabled. -/
theorem callTool_unknown_or_disabled_witness :
    callTool [w3conn] "a" "t" none = .error ("Server not found: " ++ "a") ∧
    readResource [w3conn] "a" "u" none = .error ("Server not found: " ++ "a") ∧
    callTool [w3conn] "b" "t" none = .error ("Server \"" ++ "b" ++ "\" is disabled") ∧
    readResource [w3conn] "b" "u" none = .error ("Server \"" ++ "b" ++ "\" is disabled") :=
  callTool_unknown_or_disabled [w3conn] [w3conn] "a" "b" "t" "u" none none
    (by decide) w3conn.server (by decide) (by decide) (by decide)

end Mcp

namespace Mcp

/-- Connection with stored timeout 0, used by the C10 witness. -/
def w10c0 : McpConnection :=
  { server := { name := "a", config := { type := "stdio", command := some "c", timeout := some 0 }
                status := .connected, source := .global } }

/-- Connection with no stored timeout, used by the C10 witness. -/
def w10cn : McpConnection :=
  { server := { name := "a", config := { type := "stdio", command := some "c" }
                status := .connected, source := .global } }

/-- Connection with stored timeout 5, used by the C10 witness. -/
def w10c5 : McpConnection :=
  { server := { name := "a", config := { type := "stdio", command := some "c", timeout := some 5 }
                status := .connected, source := .global } }

/-- Witness for C10 at concrete connections with stored timeouts 0, absent and 5. -/
theorem timeout_deadline_default_witness :
    (60 : Int) = 60 ∧ (60 : Int) = 60 ∧ (5 : Int) = 5 ∧ (60 : Int) = 60 ∧
      timeoutOutOfRange 0 = false :=
  timeout_deadline_default [w10c0] [w10cn] [w10c5] [w10c0] "a" "a" "a" "a" "t" "t" "t" "u"
    none none none none w10c0 w10cn w10c5 w10c0 60 60 5 60 5
    rfl rfl rfl rfl rfl rfl (by decide) rfl rfl

/-- Replacing `timeout` in a raw config commutes with the stdio branch of
validation: the branch inspects no timeout value. -/
theorem validateStdio_set_timeout (cwd : String) (c : RawConfig) (t : Option Int) :
    validateStdio cwd { c with timeout := t } =
      (validateStdio cwd c).map (fun v => { v with timeout := t }) := by
  obtain ⟨ty, cmd, args, cw, env, url, hdr, dis, tmo, aa, wp⟩ := c
  unfold validateStdio
  dsimp only
  cases cmd with
  | none => rfl
  | some cm =>
    dsimp only
    split_ifs <;> rfl

/-- Replacing `timeout` commutes with the SSE branch of validation. -/
theorem validateSse_set_timeout (ivu : String → Bool) (c : RawConfig) (t : Option Int) :
    validateSse ivu { c with timeout := t } =
      (validateSse ivu c).map (fun v => { v with timeout := t }) := by
  obtain ⟨ty, cmd, args, cw, env, url, hdr, dis, tmo, aa, wp⟩ := c
  unfold validateSse
  dsimp only
  cases url with
  | none => rfl
  | some u =>
    dsimp only
    split_ifs <;> rfl

/-- Replacing `timeout` commutes with `validateServerConfig`. -/
theorem validateServerConfig_set_timeout (ivu : String → Bool) (cwd : String)
    (c : RawConfig) (t : Option Int) :
    validateServerConfig ivu cwd { c with timeout := t } =
      (validateServerConfig ivu cwd c).map (fun v => { v with timeout := t }) := by
  unfold validateServerConfig
  rw [validateStdio_set_timeout]
  cases h : validateStdio cwd c with
  | some v => rfl
  | none =>
    dsimp only [Option.map_none]
    exact validateSse_set_timeout ivu c t

/-- C4: `updateServerTimeout` throws the range error and performs no
configuration-file write for every timeout below 0 or above 3600, and
for an in-range timeout (0, 60 and 3600 included) the range check passes
and the update is persisted in a single file write carrying the merged
entry. -/
theorem updateServerTimeout_range_check (ivu : String → Bool) (cwd : String)
    (fc : List (String × RawConfig)) (nameB nameG : String) (tb tg : Int)
    (raw : RawConfig) (v : ServerConfig)
    (hb : tb < 0 ∨ 3600 < tb)
    (hg0 : 0 ≤ tg) (hg1 : tg ≤ 3600)
    (hfind : fc.find? (fun p => p.1 == nameG) = some (nameG, raw))
    (hval : validateServerConfig ivu cwd raw = some v) :
    updateServerTimeout ivu cwd fc nameB tb =
      ([], some ("Timeout must be between 0 and 3600 seconds, got " ++ toString tb)) ∧
    updateServerTimeout ivu cwd fc nameG tg =
      ([setConfigEntry fc nameG { raw with timeout := some tg }], none) := by
  constructor
  · unfold updateServerTimeout
    rw [if_pos]
    simp only [timeoutOutOfRange, Bool.or_eq_true, decide_eq_true_eq]
    omega
  · unfold updateServerTimeout
    rw [if_neg (by simp only [timeoutOutOfRange, Bool.or_eq_true, decide_eq_true_eq]; omega)]
    rw [hfind]
    dsimp only [Option.map, Option.getD]
    rw [validateServerConfig_set_timeout, hval]
    rfl

/-- Raw config for the C4 witness. -/
def w4raw : RawConfig := { command := some "run" }

/-- Witness for C4: timeout −1 is rejected without a write, timeout 60 is
persisted, on a file holding one valid stdio server `"g"`. -/
theorem updateServerTimeout_range_check_witness :
    updateServerTimeout (fun _ => true) "/w" [("g", w4raw)] "g" (-1) =
      ([], some ("Timeout must be between 0 and 3600 seconds, got " ++ toString (-1 : Int))) ∧
    updateServerTimeout (fun _ => true) "/w" [("g", w4raw)] "g" 60 =
      ([setConfigEntry [("g", w4raw)] "g" { w4raw with timeout := some 60 }], none) :=
  updateServerTimeout_range_check (fun _ => true) "/w" [("g", w4raw)] "g" "g" (-1) 60
    w4raw ((validateServerConfig (fun _ => true) "/w" w4raw).getD { type := "" })
    (by omega) (by omega) (by omega) (by decide) (by decide)

end Mcp

namespace Mcp

/-- Every truncated message is bounded by 1000 characters of payload plus
the 28-character truncation marker. -/
theorem truncateError_length (m : String) :
    (truncateError m).length ≤ MAX_ERROR_LENGTH + truncationMarker.length := by
  unfold truncateError
  split_ifs with h
  · rw [String.length_append]
    have htake : (String.mk (m.data.take MAX_ERROR_LENGTH)).length ≤ MAX_ERROR_LENGTH := by
      show (m.data.take MAX_ERROR_LENGTH).length ≤ MAX_ERROR_LENGTH
      rw [List.length_take]
      omega
    omega
  · have : m.length ≤ MAX_ERROR_LENGTH := by omega
    have hm : (0 : Nat) ≤ truncationMarker.length := Nat.zero_le _
    omega

/-- The retention step never leaves more than 100 entries. -/
theorem capHistory_length (l : List ErrorEntry) : (capHistory l).length ≤ 100 := by
  unfold capHistory
  split_ifs with h
  · rw [List.length_drop]; omega
  · omega

/-- The retention step only drops entries. -/
theorem capHistory_subset (l : List ErrorEntry) (e : ErrorEntry)
    (h : e ∈ capHistory l) : e ∈ l := by
  unfold capHistory at h
  split_ifs at h
  · exact (List.drop_sublist _ _).mem h
  · exact h

/-- One `appendErrorMessage` call preserves the history bounds. -/
theorem appendErrorMessage_bounds (server : McpServer) (m lvl : String) (now : Nat)
    (hlen : ∀ e ∈ server.errorHistory,
      e.message.length ≤ MAX_ERROR_LENGTH + truncationMarker.length) :
    ((appendErrorMessage server m lvl now).errorHistory.length ≤ 100) ∧
    (∀ e ∈ (appendErrorMessage server m lvl now).errorHistory,
      e.message.length ≤ MAX_ERROR_LENGTH + truncationMarker.length) := by
  unfold appendErrorMessage
  dsimp only
  refine ⟨capHistory_length _, ?_⟩
  intro e he
  have hmem := capHistory_subset _ _ he
  rcases List.mem_append.mp hmem with hold | hnew
  · exact hlen e hold
  · rcases List.mem_singleton.mp hnew with rfl
    exact truncateError_length m

/-- C5 (amended): after any sequence of `appendErrorMessage` calls the
error history holds at most 100 entries and no stored message exceeds
1000 characters plus the 28-character truncation marker (1028 total); an
input longer than 1000 characters is stored as its first 1000 characters
followed by the marker. -/
theorem errorHistory_bounded (msgs : List (String × String × Nat)) (server : McpServer)
    (mLong lvl : String) (now : Nat) (s₀ : McpServer)
    (h100 : server.errorHistory.length ≤ 100)
    (hlen : ∀ e ∈ server.errorHistory,
      e.message.length ≤ MAX_ERROR_LENGTH + truncationMarker.length)
    (hlong : MAX_ERROR_LENGTH < mLong.length) :
    ((msgs.foldl (fun s p => appendErrorMessage s p.1 p.2.1 p.2.2) server).errorHistory.length
        ≤ 100) ∧
    (∀ e ∈ (msgs.foldl (fun s p => appendErrorMessage s p.1 p.2.1 p.2.2) server).errorHistory,
      e.message.length ≤ MAX_ERROR_LENGTH + truncationMarker.length) ∧
    (((appendErrorMessage s₀ mLong lvl now).errorHistory.getLast?).map (fun e => e.message) =
      some (String.mk (mLong.data.take MAX_ERROR_LENGTH) ++ truncationMarker)) := by
  refine ⟨?_, ?_, ?_⟩
  · induction msgs generalizing server with
    | nil => exact h100
    | cons p rest ih =>
      exact ih (appendErrorMessage server p.1 p.2.1 p.2.2)
        (appendErrorMessage_bounds server p.1 p.2.1 p.2.2 hlen).1
        (appendErrorMessage_bounds server p.1 p.2.1 p.2.2 hlen).2
  · induction msgs generalizing server with
    | nil => exact hlen
    | cons p rest ih =>
      exact ih (appendErrorMessage server p.1 p.2.1 p.2.2)
        (appendErrorMessage_bounds server p.1 p.2.1 p.2.2 hlen).1
        (appendErrorMessage_bounds server p.1 p.2.1 p.2.2 hlen).2
  · unfold appendErrorMessage capHistory
    dsimp only
    split_ifs with h
    · rw [List.drop_append_of_le_length (by simp only [List.length_append, List.length_singleton] at h ⊢; omega), List.getLast?_concat]
      unfold truncateError
      rw [if_pos (by omega)]
      rfl
    · rw [List.getLast?_concat]
      unfold truncateError
      rw [if_pos (by omega)]
      rfl

end Mcp

namespace Mcp

/-- Fresh disconnected server used by the C5 counterexample and witness. -/
def c5server : McpServer :=
  { name := "s", config := { type := "stdio", command := some "run" }
    status := .disconnected, source := .global }

/-- 1001-character message used by the C5 counterexample and witness. -/
def c5LongMsg : String := String.mk (List.replicate 1001 'a')

set_option maxRecDepth 8192 in
/-- C5 counterexample: appending a 1001-character message stores an entry
of 1028 characters — the first 1000 characters plus the 28-character
truncation marker — so a stored message can be longer than the claimed
1000-character bound. -/
theorem appendErrorMessage_overlong_counterexample :
    ((appendErrorMessage c5server c5LongMsg "error" 0).errorHistory.map
        (fun e => e.message.length)) = [1028] ∧ 1000 < 1028 :=
  ⟨rfl, by omega⟩

set_option maxRecDepth 8192 in
/-- Witness for the amended C5 theorem at a fresh server and the
1001-character message. -/
theorem errorHistory_bounded_witness :
    ((([] : List (String × String × Nat)).foldl
        (fun s p => appendErrorMessage s p.1 p.2.1 p.2.2) c5server).errorHistory.length
      ≤ 100) ∧
    (∀ e ∈ (([] : List (String × String × Nat)).foldl
        (fun s p => appendErrorMessage s p.1 p.2.1 p.2.2) c5server).errorHistory,
      e.message.length ≤ MAX_ERROR_LENGTH + truncationMarker.length) ∧
    (((appendErrorMessage c5server c5LongMsg "error" 0).errorHistory.getLast?).map
        (fun e => e.message) =
      some (String.mk (c5LongMsg.data.take MAX_ERROR_LENGTH) ++ truncationMarker)) :=
  errorHistory_bounded [] c5server c5LongMsg "error" 0 c5server
    (by decide) (by decide) (by decide)

end Mcp

namespace Mcp

/-- A string with a character is nonempty in length. -/
theorem length_pos_of_ne_empty (s : String) (h : s ≠ "") : ¬ s.length < 1 := by
  intro hl
  apply h
  have h0 : s.length = 0 := by omega
  cases s with
  | mk data =>
    cases data with
    | nil => rfl
    | cons a t =>
      have : (String.mk (a :: t)).length = t.length + 1 := rfl
      omega

/-- C6 (amended): server-config validation accepts exactly the two
mutually exclusive shapes, provided the optional `type` tag does not name
the other shape: a non-empty `command` with no `url`/`headers` and a
`type` of `"stdio"` or absent normalizes to `"stdio"`; a valid `url`
with no `command`/`args`/`cwd`/`env` and a `type` of `"sse"` or absent
normalizes to `"sse"`; a config carrying both a command and a url, or
neither, fails validation unconditionally. -/
theorem validateServerConfig_shapes (ivu : String → Bool) (cwd : String)
    (c₁ c₂ c₃ c₄ : RawConfig) (cmd u : String)
    (h₁c : c₁.command = some cmd) (h₁n : cmd ≠ "")
    (h₁u : c₁.url = none) (h₁h : c₁.headers = none)
    (h₁t : c₁.type = none ∨ c₁.type = some "stdio")
    (h₂u : c₂.url = some u) (h₂v : ivu u = true)
    (h₂c : c₂.command = none) (h₂a : c₂.args = none)
    (h₂w : c₂.cwd = none) (h₂e : c₂.env = none)
    (h₂t : c₂.type = none ∨ c₂.type = some "sse")
    (h₃c : c₃.command ≠ none) (h₃u : c₃.url ≠ none)
    (h₄c : c₄.command = none) (h₄u : c₄.url = none) :
    ((validateServerConfig ivu cwd c₁).map (fun v => v.type) = some "stdio") ∧
    ((validateServerConfig ivu cwd c₂).map (fun v => v.type) = some "sse") ∧
    validateServerConfig ivu cwd c₃ = none ∧
    validateServerConfig ivu cwd c₄ = none := by
  refine ⟨?_, ?_, ?_, ?_⟩
  · unfold validateServerConfig validateStdio
    rw [h₁c]
    dsimp only
    rw [if_neg (length_pos_of_ne_empty cmd h₁n), h₁u, h₁h]
    rw [if_neg (by simp), if_neg (by simp), if_pos h₁t]
    rfl
  · have hstdio : validateStdio cwd c₂ = none := by
      unfold validateStdio
      rw [h₂c]
    unfold validateServerConfig
    rw [hstdio]
    unfold validateSse
    rw [h₂u]
    dsimp only
    rw [if_neg (by rw [h₂v]; exact not_not_intro rfl), h₂c, h₂a, h₂w, h₂e]
    rw [if_neg (by simp), if_neg (by simp), if_neg (by simp), if_neg (by simp),
        if_pos h₂t]
    rfl
  · have hstdio : validateStdio cwd c₃ = none := by
      unfold validateStdio
      cases hcm : c₃.command with
      | none => exact absurd hcm h₃c
      | some cm =>
        dsimp only
        by_cases hl : cm.length < 1
        · rw [if_pos hl]
        · rw [if_neg hl, if_pos h₃u]
    have hsse : validateSse ivu c₃ = none := by
      unfold validateSse
      cases hu : c₃.url with
      | none => exact absurd hu h₃u
      | some u' =>
        dsimp only
        by_cases hv : ivu u' = true
        · rw [if_neg (not_not_intro hv), if_pos h₃c]
        · rw [if_pos (by simpa using hv)]
    unfold validateServerConfig
    rw [hstdio, hsse]
  · have hstdio : validateStdio cwd c₄ = none := by
      unfold validateStdio
      rw [h₄c]
    have hsse : validateSse ivu c₄ = none := by
      unfold validateSse
      rw [h₄u]
    unfold validateServerConfig
    rw [hstdio, hsse]

/-- Raw config with a command but a `type` tag naming the other shape,
used by the C6 counterexample. -/
def c6Bad : RawConfig := { command := some "echo", type := some "sse" }

/-- C6 counterexample: an object with a non-empty command and no url or
headers that nevertheless fails validation (its optional `type` tag says
`"sse"`), contradicting the claim that every such object validates and
normalizes to `"stdio"`. -/
theorem validateServerConfig_type_counterexample :
    c6Bad.command = some "echo" ∧ c6Bad.url = none ∧ c6Bad.headers = none ∧
    validateServerConfig (fun _ => true) "/w" c6Bad = none := by
  refine ⟨rfl, rfl, rfl, rfl⟩

/-- Witness for the amended C6 theorem at four concrete configs. -/
theorem validateServerConfig_shapes_witness :
    ((validateServerConfig (fun _ => true) "/w"
        { command := some "run" }).map (fun v => v.type) = some "stdio") ∧
    ((validateServerConfig (fun _ => true) "/w"
        { url := some "http://x" }).map (fun v => v.type) = some "sse") ∧
    validateServerConfig (fun _ => true) "/w"
        { command := some "a", url := some "b" } = none ∧
    validateServerConfig (fun _ => true) "/w" ({} : RawConfig) = none :=
  validateServerConfig_shapes (fun _ => true) "/w"
    { command := some "run" } { url := some "http://x" }
    { command := some "a", url := some "b" } {} "run" "http://x"
    rfl (by decide) rfl rfl (Or.inl rfl)
    rfl rfl rfl rfl rfl rfl (Or.inl rfl)
    (by decide) (by decide) rfl rfl

end Mcp

namespace Mcp

/-- C7: for every stdio config carrying a (non-empty, hence truthy)
command, `StdioHandler.createConnection` never throws: whatever the
connect outcome, it returns the connection record; on a connect failure
the returned record is `disconnected`, carries the truncated error and
has it appended to the (fresh) error history.  Only a config whose
required command field is missing fails fast, with the descriptive
error. -/
theorem stdioCreate_failure_no_throw (name : String) (config : ServerConfig)
    (src : ConfigSource) (outcome : ConnectOutcome) (e : String) (now : Nat)
    (cmd : String) (hc : config.command = some cmd) (hne : cmd ≠ "") :
    (∃ r, StdioHandler.createConnection name config src outcome now = .ok r) ∧
    (∃ r, StdioHandler.createConnection name config src (.failure e) now = .ok r ∧
        r.server.status = .disconnected ∧
        r.server.error = some (truncateError e) ∧
        r.server.errorHistory.map (fun en => en.message) = [truncateError e]) ∧
    StdioHandler.createConnection name { config with command := none } src outcome now =
      .error ("Server \"" ++ name ++ "\" of type \"stdio\" must have a \"command\" property") := by
  have hcond : ¬ (config.command.getD "" = "") := by
    rw [hc]
    exact hne
  refine ⟨?_, ?_, ?_⟩
  · unfold StdioHandler.createConnection
    rw [if_neg hcond]
    cases outcome with
    | success tools resources resourceTemplates => exact ⟨_, rfl⟩
    | failure errMsg => exact ⟨_, rfl⟩
  · unfold StdioHandler.createConnection
    rw [if_neg hcond]
    refine ⟨_, rfl, rfl, rfl, ?_⟩
    unfold appendErrorMessage capHistory
    rfl
  · unfold StdioHandler.createConnection
    dsimp only [Option.getD]
    rw [if_pos rfl]

/-- Stdio config used by the C7 witness. -/
def w7cfg : ServerConfig := { type := "stdio", command := some "run" }

/-- Witness for C7 at a concrete stdio config and a failing connect. -/
theorem stdioCreate_failure_no_throw_witness :
    (∃ r, StdioHandler.createConnection "s" w7cfg .global (.failure "boom") 7 = .ok r) ∧
    (∃ r, StdioHandler.createConnection "s" w7cfg .global (.failure "boom") 7 = .ok r ∧
        r.server.status = .disconnected ∧
        r.server.error = some (truncateError "boom") ∧
        r.server.errorHistory.map (fun en => en.message) = [truncateError "boom"]) ∧
    StdioHandler.createConnection "s" { w7cfg with command := none } .global
        (.failure "boom") 7 =
      .error ("Server \"" ++ "s" ++ "\" of type \"stdio\" must have a \"command\" property") :=
  stdioCreate_failure_no_throw "s" w7cfg .global (.failure "boom") "boom" 7 "run"
    rfl (by decide)

end Mcp

namespace Mcp

/-- A handler-created connection carries the requested name, source and
config. -/
theorem handlerCreate_fields (kind : HandlerKind) (n : String) (cfg : ServerConfig)
    (src : ConfigSource) (oc : ConnectOutcome) (now : Nat) (conn : McpConnection)
    (h : handlerCreateConnection kind n cfg src oc now = .ok conn) :
    conn.server.name = n ∧ conn.server.source = src ∧ conn.server.config = cfg := by
  cases kind with
  | stdio =>
    cases oc with
    | success t r rt =>
      unfold handlerCreateConnection StdioHandler.createConnection at h
      split_ifs at h
      cases h
      exact ⟨rfl, rfl, rfl⟩
    | failure m =>
      unfold handlerCreateConnection StdioHandler.createConnection at h
      split_ifs at h
      cases h
      exact ⟨rfl, rfl, rfl⟩
  | sse =>
    cases oc with
    | success t r rt =>
      unfold handlerCreateConnection SseHandler.createConnection at h
      split_ifs at h
      cases h
      exact ⟨rfl, rfl, rfl⟩
    | failure m =>
      unfold handlerCreateConnection SseHandler.createConnection at h
      split_ifs at h
      cases h
      exact ⟨rfl, rfl, rfl⟩

/-- Shape of a successful `ConnectionFactory.createConnection`: the same-key
records are removed, the handler's record (carrying the requested key and
the patched config) is appended, and one `created` event is reported. -/
theorem factoryCreate_ok (conns : List McpConnection) (n : String) (cfg : ServerConfig)
    (src : ConfigSource) (oc : ConnectOutcome) (now : Nat) (conns' : List McpConnection)
    (evs : List FactoryEvent)
    (h : factoryCreateConnection conns n cfg src oc now = .ok (conns', evs)) :
    (∃ c', conns' = conns.filter (fun c => !(connMatches n src c)) ++ [c'] ∧
       c'.server.name = n ∧ c'.server.source = src ∧ c'.server.config = patchType cfg) ∧
    evs = [.created n src] := by
  unfold factoryCreateConnection at h
  dsimp only at h
  cases hh : getHandlerForType (patchType cfg).type with
  | none => rw [hh] at h; cases h
  | some k =>
    rw [hh] at h
    dsimp only at h
    cases hc : handlerCreateConnection k n (patchType cfg) src oc now with
    | error e => rw [hc] at h; cases h
    | ok conn =>
      rw [hc] at h
      dsimp only at h
      obtain ⟨hn, hs, hcfg⟩ := handlerCreate_fields k n (patchType cfg) src oc now conn hc
      cases h
      exact ⟨⟨conn, rfl, hn, hs, hcfg⟩, rfl⟩

/-- Filtering preserves the one-record-per-key invariant. -/
theorem uniqueKey_filter (conns : List McpConnection) (p : McpConnection → Bool)
    (hu : uniqueKey conns) : uniqueKey (conns.filter p) :=
  List.Pairwise.sublist (List.filter_sublist conns) hu

/-- Removing the same-key records and appending one record with that key
preserves the invariant. -/
theorem uniqueKey_append_create (conns : List McpConnection) (n : String)
    (src : ConfigSource) (c' : McpConnection) (hu : uniqueKey conns)
    (hn : c'.server.name = n) (hs : c'.server.source = src) :
    uniqueKey (conns.filter (fun c => !(connMatches n src c)) ++ [c']) := by
  rw [uniqueKey, List.pairwise_append]
  refine ⟨uniqueKey_filter _ _ hu, List.pairwise_singleton _ _, ?_⟩
  intro a ha b hb
  rcases List.mem_singleton.mp hb with rfl
  intro hsk
  have hmem := List.mem_filter.mp ha
  have hma : connMatches n src a = true := by
    rw [connMatches_iff]
    exact ⟨hsk.1.trans hn, hsk.2.trans hs⟩
  rw [hma] at hmem
  exact absurd hmem.2 (by decide)

/-- `ConnectionFactory.closeConnection` preserves the invariant. -/
theorem uniqueKey_close (conns : List McpConnection) (n : String)
    (src? : Option ConfigSource) (ak : Bool) (hu : uniqueKey conns) :
    uniqueKey (factoryCloseConnection conns n src? ak).1 := by
  unfold factoryCloseConnection
  dsimp only
  split_ifs
  · exact hu
  · exact uniqueKey_filter _ _ hu

/-- A key-preserving map preserves the invariant. -/
theorem uniqueKey_map_patch (conns : List McpConnection) (f : McpConnection → McpConnection)
    (hf : ∀ c, (f c).server.name = c.server.name ∧ (f c).server.source = c.server.source)
    (hu : uniqueKey conns) : uniqueKey (conns.map f) := by
  rw [uniqueKey, List.pairwise_map]
  apply hu.imp
  intro a b hab hsk
  exact hab ⟨((hf a).1.symm.trans hsk.1).trans (hf b).1,
             ((hf a).2.symm.trans hsk.2).trans (hf b).2⟩

/-- The reconciler's per-entry step preserves the invariant. -/
theorem uniqueKey_processEntry (ivu : String → Bool) (cwd : String)
    (oc : String → ConfigSource → ConnectOutcome) (now : Nat) (src : ConfigSource)
    (n : String) (raw : RawConfig) (conns : List McpConnection)
    (hu : uniqueKey conns) :
    uniqueKey (processEntry ivu cwd oc now src n raw conns).1 := by
  unfold processEntry
  cases validateServerConfig ivu cwd raw with
  | none => exact hu
  | some v =>
    dsimp only
    cases conns.find? (connMatches n src) with
    | some ex =>
      dsimp only
      split_ifs with hne hdis
      · exact uniqueKey_close conns n (some src) false hu
      · cases hcr : factoryCreateConnection (factoryCloseConnection conns n (some src) false).1
            n v src (oc n src) now with
        | ok p =>
          obtain ⟨⟨c', hc', hn, hs, _⟩, _⟩ :=
            factoryCreate_ok _ n v src (oc n src) now p.1 p.2 hcr
          dsimp only
          rw [hc']
          exact uniqueKey_append_create _ n src c'
            (uniqueKey_close conns n (some src) false hu) hn hs
        | error e => exact uniqueKey_close conns n (some src) false hu
      · apply uniqueKey_map_patch conns _ _ hu
        intro c
        split_ifs
        · exact ⟨rfl, rfl⟩
        · exact ⟨rfl, rfl⟩
    | none =>
      dsimp only
      split_ifs with hdis
      · exact hu
      · cases hcr : factoryCreateConnection conns n v src (oc n src) now with
        | ok p =>
          obtain ⟨⟨c', hc', hn, hs, _⟩, _⟩ :=
            factoryCreate_ok _ n v src (oc n src) now p.1 p.2 hcr
          dsimp only
          rw [hc']
          exact uniqueKey_append_create _ n src c' hu hn hs
        | error e => exact hu

/-- The reconciler's close-deleted loop preserves the invariant. -/
theorem uniqueKey_closeDeletedLoop (cs : List String) (src : ConfigSource)
    (names : List String) (conns : List McpConnection) (hu : uniqueKey conns) :
    uniqueKey (closeDeletedLoop cs src names conns).1 := by
  induction names generalizing conns with
  | nil => exact hu
  | cons n rest ih =>
    unfold closeDeletedLoop
    split_ifs
    · exact ih conns hu
    · exact ih _ (uniqueKey_close conns n (some src) false hu)

/-- The reconciler's update loop preserves the invariant. -/
theorem uniqueKey_updateEntriesLoop (ivu : String → Bool) (cwd : String)
    (oc : String → ConfigSource → ConnectOutcome) (now : Nat) (src : ConfigSource)
    (entries : List (String × RawConfig)) (conns : List McpConnection)
    (hu : uniqueKey conns) :
    uniqueKey (updateEntriesLoop ivu cwd oc now src entries conns).1 := by
  induction entries generalizing conns with
  | nil => exact hu
  | cons e rest ih =>
    unfold updateEntriesLoop
    exact ih _ (uniqueKey_processEntry ivu cwd oc now src e.1 e.2 conns hu)

/-- `updateServerConnections` preserves the invariant. -/
theorem uniqueKey_updateServerConnections (ivu : String → Bool) (cwd : String)
    (oc : String → ConfigSource → ConnectOutcome) (now : Nat)
    (conns : List McpConnection) (configs : List (String × RawConfig))
    (src : ConfigSource) (hu : uniqueKey conns) :
    uniqueKey (updateServerConnections ivu cwd oc now conns configs src).1 := by
  unfold updateServerConnections
  exact uniqueKey_updateEntriesLoop ivu cwd oc now src configs _
    (uniqueKey_closeDeletedLoop _ src _ conns hu)

/-- Every single factory operation preserves the invariant. -/
theorem uniqueKey_applyOp (ivu : String → Bool) (cwd : String)
    (ocs : String → ConfigSource → ConnectOutcome) (now : Nat)
    (conns : List McpConnection) (op : FactoryOp) (hu : uniqueKey conns) :
    uniqueKey (applyOp ivu cwd ocs now conns op) := by
  cases op with
  | create n cfg src oc =>
    unfold applyOp
    dsimp only
    cases hcr : factoryCreateConnection conns n cfg src oc now with
    | ok p =>
      obtain ⟨cs', es'⟩ := p
      obtain ⟨⟨c', hc', hn, hs, _⟩, _⟩ := factoryCreate_ok _ n cfg src oc now cs' es' hcr
      dsimp only
      rw [hc']
      exact uniqueKey_append_create _ n src c' hu hn hs
    | error e => exact hu
  | close n src? ak => exact uniqueKey_close conns n src? ak hu
  | update configs src => exact uniqueKey_updateServerConnections ivu cwd ocs now conns configs src hu

/-- C2: after any sequence of createConnection, closeConnection and
updateServerConnections operations starting from a list satisfying the
one-record-per-(name, source) invariant, the invariant still holds; and a
successful createConnection removes every pre-existing record with the
same (name, source) before appending the newly created one. -/
theorem factory_uniqueKey_invariant (ivu : String → Bool) (cwd : String)
    (ocs : String → ConfigSource → ConnectOutcome) (now : Nat)
    (init : List McpConnection) (ops : List FactoryOp)
    (hu : uniqueKey init)
    (conns₀ : List McpConnection) (nm : String) (cfg : ServerConfig)
    (src : ConfigSource) (oc : ConnectOutcome) (conns' : List McpConnection)
    (evs : List FactoryEvent)
    (hcr : factoryCreateConnection conns₀ nm cfg src oc now = .ok (conns', evs)) :
    uniqueKey (applyOps ivu cwd ocs now init ops) ∧
    (∃ c', conns' = conns₀.filter (fun c => !(connMatches nm src c)) ++ [c'] ∧
       c'.server.name = nm ∧ c'.server.source = src) := by
  constructor
  · unfold applyOps
    induction ops generalizing init with
    | nil => exact hu
    | cons op rest ih =>
      exact ih _ (uniqueKey_applyOp ivu cwd ocs now init op hu)
  · obtain ⟨⟨c', hc', hn, hs, _⟩, _⟩ := factoryCreate_ok conns₀ nm cfg src oc now conns' evs hcr
    exact ⟨c', hc', hn, hs⟩

end Mcp

namespace Mcp

/-- Stdio config used by the C2 witness. -/
def w2cfg : ServerConfig := { type := "stdio", command := some "run" }

/-- Connection produced by the C2 witness creation. -/
def w2conn : McpConnection :=
  { server := { name := "a", config := w2cfg, status := .connected, source := .global } }

/-- Operation sequence exercised by the C2 witness. -/
def w2ops : List FactoryOp :=
  [.create "a" w2cfg .global (.success [] [] []),
   .update [("a", { command := some "run" })] .global,
   .close "a" none false]

/-- Witness for C2: a concrete create/update/close sequence from the
empty list, and a concrete successful creation. -/
theorem factory_uniqueKey_invariant_witness :
    uniqueKey (applyOps (fun _ => true) "/w" (fun _ _ => .success [] [] []) 0 [] w2ops) ∧
    (∃ c', [w2conn] = (([] : List McpConnection).filter
          (fun c => !(connMatches "a" .global c))) ++ [c'] ∧
       c'.server.name = "a" ∧ c'.server.source = .global) :=
  factory_uniqueKey_invariant (fun _ => true) "/w" (fun _ _ => .success [] [] []) 0
    [] w2ops List.Pairwise.nil
    [] "a" w2cfg .global (.success [] [] []) [w2conn] [.created "a" .global] rfl

end Mcp

namespace Mcp

/-- A predicate on connections that only reads the identity key transfers
along records with equal keys. -/
def keyOnly (P : McpConnection → Bool) : Prop :=
  ∀ c₁ c₂ : McpConnection, c₁.server.name = c₂.server.name →
    c₁.server.source = c₂.server.source → P c₁ = P c₂

/-- Closing one key leaves the `P`-part of the list untouched when `P`
excludes that key, and reports only `closed` events for it. -/
theorem close_frame (P : McpConnection → Bool) (conns : List McpConnection)
    (n : String) (src : ConfigSource) (ak : Bool)
    (hn : ∀ c : McpConnection, c.server.name = n → c.server.source = src → P c = false) :
    ((factoryCloseConnection conns n (some src) ak).1).filter P = conns.filter P ∧
    ∀ ev ∈ (factoryCloseConnection conns n (some src) ak).2, ev = .closed n src := by
  constructor
  · unfold factoryCloseConnection
    dsimp only
    split_ifs
    · rfl
    · apply filter_sub_frame
      intro c hc
      cases hm : serverMatches n (some src) c.server with
      | false => rfl
      | true =>
        obtain ⟨h1, h2⟩ := (serverMatches_some_iff n src c.server).mp hm
        rw [hn c h1 h2] at hc
        cases hc
  · intro ev hev
    unfold factoryCloseConnection at hev
    dsimp only at hev
    obtain ⟨c, hc, hevc⟩ := List.mem_map.mp hev
    obtain ⟨_, hm⟩ := List.mem_filter.mp hc
    obtain ⟨h1, h2⟩ := (serverMatches_some_iff n src c.server).mp hm
    rw [← hevc, h1, h2]

/-- A successful creation for one key leaves the `P`-part untouched when
`P` excludes that key, and reports exactly one `created` event. -/
theorem create_frame (P : McpConnection → Bool) (conns : List McpConnection)
    (n : String) (cfg : ServerConfig) (src : ConfigSource) (oc : ConnectOutcome)
    (now : Nat) (conns' : List McpConnection) (evs : List FactoryEvent)
    (h : factoryCreateConnection conns n cfg src oc now = .ok (conns', evs))
    (hn : ∀ c : McpConnection, c.server.name = n → c.server.source = src → P c = false) :
    conns'.filter P = conns.filter P ∧ evs = [.created n src] := by
  obtain ⟨⟨c', hc', hname, hsrc, _⟩, hevs⟩ :=
    factoryCreate_ok conns n cfg src oc now conns' evs h
  refine ⟨?_, hevs⟩
  rw [hc', List.filter_append]
  have hc'P : P c' = false := hn c' hname hsrc
  have h2 : List.filter P [c'] = [] := by
    rw [List.filter_cons_of_neg (by rw [hc'P]; exact Bool.false_ne_true)]
    rfl
  rw [h2, List.append_nil]
  apply filter_sub_frame
  intro c hc
  cases hm : connMatches n src c with
  | false => rfl
  | true =>
    obtain ⟨h1, h2⟩ := (connMatches_iff n src c).mp hm
    rw [hn c h1 h2] at hc
    cases hc

/-- The in-place config patch of the reconciler's unchanged branch leaves
the `P`-part untouched when `P` only reads keys and excludes the patched
key. -/
theorem patchMap_frame (P : McpConnection → Bool) (conns : List McpConnection)
    (n : String) (src : ConfigSource) (v : ServerConfig)
    (hkey : keyOnly P)
    (hn : ∀ c : McpConnection, c.server.name = n → c.server.source = src → P c = false) :
    (conns.map (fun c => if connMatches n src c then
        { c with server := { c.server with config := v } } else c)).filter P =
      conns.filter P := by
  rw [filter_map_comm]
  · apply List.map_congr_left ?_ |>.trans (List.map_id _)
    intro c hc
    have hP := (List.mem_filter.mp hc).2
    cases hm : connMatches n src c with
    | false => simp [hm]
    | true =>
      obtain ⟨h1, h2⟩ := (connMatches_iff n src c).mp hm
      rw [hn c h1 h2] at hP
      cases hP
  · intro c
    apply hkey
    · split_ifs <;> rfl
    · split_ifs <;> rfl

end Mcp

namespace Mcp

/-- The reconciler's per-entry step for one key leaves the `P`-part of
the list untouched and produces only events for that key, when `P` only
reads keys and excludes the key. -/
theorem processEntry_frame (P : McpConnection → Bool) (ivu : String → Bool) (cwd : String)
    (oc : String → ConfigSource → ConnectOutcome) (now : Nat) (src : ConfigSource)
    (n : String) (raw : RawConfig) (conns : List McpConnection)
    (hkey : keyOnly P)
    (hn : ∀ c : McpConnection, c.server.name = n → c.server.source = src → P c = false) :
    ((processEntry ivu cwd oc now src n raw conns).1).filter P = conns.filter P ∧
    ∀ ev ∈ (processEntry ivu cwd oc now src n raw conns).2,
      ev = .closed n src ∨ ev = .created n src := by
  unfold processEntry
  cases validateServerConfig ivu cwd raw with
  | none => exact ⟨rfl, fun ev hev => by cases hev⟩
  | some v =>
    dsimp only
    cases conns.find? (connMatches n src) with
    | some ex =>
      dsimp only
      split_ifs with hne hdis
      · exact ⟨(close_frame P conns n src false hn).1,
          fun ev hev => Or.inl ((close_frame P conns n src false hn).2 ev hev)⟩
      · cases hcr : factoryCreateConnection (factoryCloseConnection conns n (some src) false).1
            n v src (oc n src) now with
        | ok p =>
          obtain ⟨cs', es'⟩ := p
          dsimp only
          constructor
          · rw [(create_frame P _ n v src (oc n src) now cs' es' hcr hn).1,
               (close_frame P conns n src false hn).1]
          · intro ev hev
            rcases List.mem_append.mp hev with h1 | h2
            · exact Or.inl ((close_frame P conns n src false hn).2 ev h1)
            · rw [(create_frame P _ n v src (oc n src) now cs' es' hcr hn).2] at h2
              rcases List.mem_singleton.mp h2 with rfl
              exact Or.inr rfl
        | error e =>
          exact ⟨(close_frame P conns n src false hn).1,
            fun ev hev => Or.inl ((close_frame P conns n src false hn).2 ev hev)⟩
      · exact ⟨patchMap_frame P conns n src v hkey hn, fun ev hev => by cases hev⟩
    | none =>
      dsimp only
      split_ifs with hdis
      · exact ⟨rfl, fun ev hev => by cases hev⟩
      · cases hcr : factoryCreateConnection conns n v src (oc n src) now with
        | ok p =>
          obtain ⟨cs', es'⟩ := p
          dsimp only
          refine ⟨(create_frame P conns n v src (oc n src) now cs' es' hcr hn).1, ?_⟩
          intro ev hev
          rw [(create_frame P conns n v src (oc n src) now cs' es' hcr hn).2] at hev
          rcases List.mem_singleton.mp hev with rfl
          exact Or.inr rfl
        | error e => exact ⟨rfl, fun ev hev => by cases hev⟩

/-- The close-deleted loop leaves the `P`-part untouched when `P`
excludes every name it actually closes, and reports only `closed` events
for closed names. -/
theorem closeDeletedLoop_frame (P : McpConnection → Bool) (cs : List String)
    (src : ConfigSource) (names : List String) (conns : List McpConnection)
    (hn : ∀ n' ∈ names, cs.contains n' = false →
      ∀ c : McpConnection, c.server.name = n' → c.server.source = src → P c = false) :
    ((closeDeletedLoop cs src names conns).1).filter P = conns.filter P ∧
    ∀ ev ∈ (closeDeletedLoop cs src names conns).2,
      ∃ n', n' ∈ names ∧ cs.contains n' = false ∧ ev = .closed n' src := by
  induction names generalizing conns with
  | nil => exact ⟨rfl, fun ev hev => by cases hev⟩
  | cons n rest ih =>
    unfold closeDeletedLoop
    split_ifs with hcont
    · obtain ⟨ha, hb⟩ := ih conns (fun n' h hc => hn n' (List.mem_cons_of_mem n h) hc)
      refine ⟨ha, fun ev hev => ?_⟩
      obtain ⟨n', h1, h2, h3⟩ := hb ev hev
      exact ⟨n', List.mem_cons_of_mem n h1, h2, h3⟩
    · dsimp only
      have hcontf : cs.contains n = false := by
        cases h : cs.contains n
        · rfl
        · exact absurd h hcont
      have hnn := hn n (List.mem_cons_self n rest) hcontf
      obtain ⟨ha, hb⟩ := ih (factoryCloseConnection conns n (some src) false).1
        (fun n' h hc => hn n' (List.mem_cons_of_mem n h) hc)
      constructor
      · rw [ha, (close_frame P conns n src false hnn).1]
      · intro ev hev
        rcases List.mem_append.mp hev with h1 | h2
        · exact ⟨n, List.mem_cons_self n rest, hcontf,
            (close_frame P conns n src false hnn).2 ev h1⟩
        · obtain ⟨n', hh1, hh2, hh3⟩ := hb ev h2
          exact ⟨n', List.mem_cons_of_mem n hh1, hh2, hh3⟩

/-- The update loop leaves the `P`-part untouched and produces only
events for the processed entry names, when `P` only reads keys and
excludes every entry name. -/
theorem updateEntriesLoop_frame (P : McpConnection → Bool) (ivu : String → Bool)
    (cwd : String) (oc : String → ConfigSource → ConnectOutcome) (now : Nat)
    (src : ConfigSource) (entries : List (String × RawConfig)) (conns : List McpConnection)
    (hkey : keyOnly P)
    (hn : ∀ p ∈ entries, ∀ c : McpConnection, c.server.name = p.1 →
      c.server.source = src → P c = false) :
    ((updateEntriesLoop ivu cwd oc now src entries conns).1).filter P = conns.filter P ∧
    ∀ ev ∈ (updateEntriesLoop ivu cwd oc now src entries conns).2,
      ∃ q ∈ entries, ev = .closed q.1 src ∨ ev = .created q.1 src := by
  induction entries generalizing conns with
  | nil => exact ⟨rfl, fun ev hev => by cases hev⟩
  | cons e rest ih =>
    obtain ⟨en, eraw⟩ := e
    unfold updateEntriesLoop
    dsimp only
    have hne := hn (en, eraw) (List.mem_cons_self _ _)
    obtain ⟨pa, pb⟩ := processEntry_frame P ivu cwd oc now src en eraw conns hkey hne
    obtain ⟨la, lb⟩ := ih (processEntry ivu cwd oc now src en eraw conns).1
      (fun p h => hn p (List.mem_cons_of_mem _ h))
    constructor
    · rw [la, pa]
    · intro ev hev
      rcases List.mem_append.mp hev with h1 | h2
      · exact ⟨(en, eraw), List.mem_cons_self _ _, pb ev h1⟩
      · obtain ⟨q, hq1, hq2⟩ := lb ev h2
        exact ⟨q, List.mem_cons_of_mem _ hq1, hq2⟩

end Mcp

namespace Mcp

/-- The update loop processes an appended list by processing the first
part, then the second on the resulting state, accumulating events. -/
theorem updateEntriesLoop_cons (ivu : String → Bool) (cwd : String)
    (oc : String → ConfigSource → ConnectOutcome) (now : Nat) (src : ConfigSource)
    (en : String) (eraw : RawConfig) (rest : List (String × RawConfig))
    (conns : List McpConnection) :
    updateEntriesLoop ivu cwd oc now src ((en, eraw) :: rest) conns =
      ((updateEntriesLoop ivu cwd oc now src rest
          (processEntry ivu cwd oc now src en eraw conns).1).1,
       (processEntry ivu cwd oc now src en eraw conns).2 ++
         (updateEntriesLoop ivu cwd oc now src rest
           (processEntry ivu cwd oc now src en eraw conns).1).2) := rfl

/-- The update loop processes an appended list by processing the first
part, then the second on the resulting state, accumulating events. -/
theorem updateEntriesLoop_append (ivu : String → Bool) (cwd : String)
    (oc : String → ConfigSource → ConnectOutcome) (now : Nat) (src : ConfigSource)
    (l₁ l₂ : List (String × RawConfig)) (conns : List McpConnection) :
    updateEntriesLoop ivu cwd oc now src (l₁ ++ l₂) conns =
      ((updateEntriesLoop ivu cwd oc now src l₂
          (updateEntriesLoop ivu cwd oc now src l₁ conns).1).1,
       (updateEntriesLoop ivu cwd oc now src l₁ conns).2 ++
         (updateEntriesLoop ivu cwd oc now src l₂
           (updateEntriesLoop ivu cwd oc now src l₁ conns).1).2) := by
  induction l₁ generalizing conns with
  | nil =>
    unfold updateEntriesLoop
    rfl
  | cons e rest ih =>
    obtain ⟨en, eraw⟩ := e
    rw [List.cons_append, updateEntriesLoop_cons, ih,
        updateEntriesLoop_cons ivu cwd oc now src en eraw rest conns,
        List.append_assoc]

/-- A validated config is a normalized stdio shape with a truthy command,
or a normalized SSE shape with a url passing the URL check. -/
theorem validate_props (ivu : String → Bool) (cwd : String) (raw : RawConfig)
    (v : ServerConfig) (h : validateServerConfig ivu cwd raw = some v) :
    (v.type = "stdio" ∧ ∃ cmd, v.command = some cmd ∧ cmd ≠ "") ∨
    (v.type = "sse" ∧ ∃ u, v.url = some u ∧ ivu u = true) := by
  unfold validateServerConfig at h
  cases hs : validateStdio cwd raw with
  | some v' =>
    rw [hs] at h
    injection h with h'
    subst h'
    left
    unfold validateStdio at hs
    cases hcm : raw.command with
    | none => rw [hcm] at hs; cases hs
    | some cmd =>
      rw [hcm] at hs
      dsimp only at hs
      split_ifs at hs with h1 h2 h3 h4
      injection hs with hv
      subst hv
      refine ⟨rfl, cmd, rfl, ?_⟩
      intro hemp
      subst hemp
      exact h1 (by decide)
  | none =>
    rw [hs] at h
    right
    unfold validateSse at h
    cases hu : raw.url with
    | none => rw [hu] at h; cases h
    | some u =>
      rw [hu] at h
      dsimp only at h
      split_ifs at h with h1 h2 h3 h4 h5 h6
      injection h with hv
      subst hv
      exact ⟨rfl, u, rfl, h1⟩

/-- Creating a connection from a validated config always succeeds
(provided the URL check rejects the empty string, as a real URL check
does): the normalized type selects a registered handler and the
handler's required field is present and truthy. -/
theorem create_validated_ok (ivu : String → Bool) (cwd : String) (raw : RawConfig)
    (v : ServerConfig) (conns : List McpConnection) (n : String) (src : ConfigSource)
    (oc : ConnectOutcome) (now : Nat)
    (hval : validateServerConfig ivu cwd raw = some v) (hivu : ivu "" = false) :
    ∃ p, factoryCreateConnection conns n v src oc now = .ok p := by
  rcases validate_props ivu cwd raw v hval with ⟨hty, cmd, hcmd, hne⟩ | ⟨hty, u, hu, hvu⟩
  · have hpatch : patchType v = v := by
      unfold patchType
      rw [if_pos (by rw [hty]; exact fun hc => nomatch hc)]
    unfold factoryCreateConnection
    dsimp only
    rw [hpatch, hty]
    dsimp only [getHandlerForType]
    rw [if_pos rfl]
    dsimp only [handlerCreateConnection]
    unfold StdioHandler.createConnection
    rw [if_neg (by rw [hcmd]; exact hne)]
    cases oc with
    | success t r rt => exact ⟨_, rfl⟩
    | failure m => exact ⟨_, rfl⟩
  · have hpatch : patchType v = v := by
      unfold patchType
      rw [if_pos (by rw [hty]; exact fun hc => nomatch hc)]
    have hune : u ≠ "" := by
      intro hemp
      subst hemp
      rw [hivu] at hvu
      cases hvu
    unfold factoryCreateConnection
    dsimp only
    rw [hpatch, hty]
    dsimp only [getHandlerForType]
    rw [if_neg (by decide), if_pos rfl]
    dsimp only [handlerCreateConnection]
    unfold SseHandler.createConnection
    rw [if_neg (by rw [hu]; exact hune)]
    cases oc with
    | success t r rt => exact ⟨_, rfl⟩
    | failure m => exact ⟨_, rfl⟩

end Mcp

namespace Mcp

/-- A connection with a different name never matches the key. -/
theorem connMatches_false_of_ne (name : String) (src : ConfigSource) (c : McpConnection)
    (h : c.server.name ≠ name) : connMatches name src c = false := by
  cases hm : connMatches name src c
  · rfl
  · exact absurd ((connMatches_iff name src c).mp hm).1 h

/-- The key match only reads the identity key. -/
theorem keyOnly_connMatches (name : String) (src : ConfigSource) :
    keyOnly (connMatches name src) := by
  intro c₁ c₂ h1 h2
  unfold connMatches
  rw [h1, h2]

/-- Membership in a string list makes `contains` true. -/
theorem contains_of_mem (l : List String) (a : String) (h : a ∈ l) :
    l.contains a = true := by
  exact List.elem_iff.mpr h

/-- Decomposition of `updateServerConnections` around one config entry:
the close-deleted pass runs first, then the entries before the target,
the target itself, and the entries after it, with events accumulated in
that order. -/
theorem updateSC_split (ivu : String → Bool) (cwd : String)
    (oc : String → ConfigSource → ConnectOutcome) (now : Nat) (src : ConfigSource)
    (conns : List McpConnection) (pre post : List (String × RawConfig))
    (name : String) (raw : RawConfig) :
    updateServerConnections ivu cwd oc now conns (pre ++ (name, raw) :: post) src =
      ((updateEntriesLoop ivu cwd oc now src post
         (processEntry ivu cwd oc now src name raw
           (updateEntriesLoop ivu cwd oc now src pre
             (closeDeletedLoop ((pre ++ (name, raw) :: post).map Prod.fst) src
               ((conns.filter (fun c => decide (c.server.source = src))).map
                 (fun c => c.server.name)) conns).1).1).1).1,
       (closeDeletedLoop ((pre ++ (name, raw) :: post).map Prod.fst) src
           ((conns.filter (fun c => decide (c.server.source = src))).map
             (fun c => c.server.name)) conns).2 ++
        ((updateEntriesLoop ivu cwd oc now src pre
           (closeDeletedLoop ((pre ++ (name, raw) :: post).map Prod.fst) src
             ((conns.filter (fun c => decide (c.server.source = src))).map
               (fun c => c.server.name)) conns).1).2 ++
         ((processEntry ivu cwd oc now src name raw
             (updateEntriesLoop ivu cwd oc now src pre
               (closeDeletedLoop ((pre ++ (name, raw) :: post).map Prod.fst) src
                 ((conns.filter (fun c => decide (c.server.source = src))).map
                   (fun c => c.server.name)) conns).1).1).2 ++
          (updateEntriesLoop ivu cwd oc now src post
            (processEntry ivu cwd oc now src name raw
              (updateEntriesLoop ivu cwd oc now src pre
                (closeDeletedLoop ((pre ++ (name, raw) :: post).map Prod.fst) src
                  ((conns.filter (fun c => decide (c.server.source = src))).map
                    (fun c => c.server.name)) conns).1).1).1).2))) := by
  unfold updateServerConnections
  dsimp only
  rw [updateEntriesLoop_append, updateEntriesLoop_cons]

end Mcp

namespace Mcp

/-- Reconciling an entry whose validated config differs from the stored
one only outside the connection-relevant fields: no events, and the
stored config of the (unique) matching record is overwritten in place. -/
theorem processEntry_target_unchanged (ivu : String → Bool) (cwd : String)
    (oc : String → ConfigSource → ConnectOutcome) (now : Nat) (src : ConfigSource)
    (name : String) (raw : RawConfig) (conns : List McpConnection)
    (ex : McpConnection) (v : ServerConfig)
    (hval : validateServerConfig ivu cwd raw = some v)
    (hfilter : conns.filter (connMatches name src) = [ex])
    (heq : stripNonConnectionFields ex.server.config = stripNonConnectionFields v) :
    (processEntry ivu cwd oc now src name raw conns).2 = [] ∧
    ((processEntry ivu cwd oc now src name raw conns).1).filter (connMatches name src) =
      [{ ex with server := { ex.server with config := v } }] := by
  have hfind := find?_of_filter_eq_singleton (connMatches name src) conns ex hfilter
  have hexmem : ex ∈ conns.filter (connMatches name src) := by
    rw [hfilter]; exact List.mem_singleton_self ex
  have hm : connMatches name src ex = true := (List.mem_filter.mp hexmem).2
  unfold processEntry
  rw [hval, hfind]
  dsimp only
  rw [if_neg (fun hc => hc heq)]
  refine ⟨rfl, ?_⟩
  rw [filter_map_comm]
  · rw [hfilter]
    dsimp only [List.map]
    rw [if_pos hm]
  · intro c
    apply keyOnly_connMatches name src
    · split_ifs <;> rfl
    · split_ifs <;> rfl

/-- Reconciling an entry whose validated config differs from the stored
one in a connection-relevant field: the connection is closed and, when
the new config is not disabled, recreated (the URL check rejecting the
empty string). -/
theorem processEntry_target_changed (ivu : String → Bool) (cwd : String)
    (oc : String → ConfigSource → ConnectOutcome) (now : Nat) (src : ConfigSource)
    (name : String) (raw : RawConfig) (conns : List McpConnection)
    (ex : McpConnection) (v : ServerConfig)
    (hval : validateServerConfig ivu cwd raw = some v)
    (hfilter : conns.filter (connMatches name src) = [ex])
    (hne : stripNonConnectionFields ex.server.config ≠ stripNonConnectionFields v)
    (hivu : ivu "" = false) :
    (processEntry ivu cwd oc now src name raw conns).2 =
      (if isDisabledCfg v = true then [.closed name src]
       else [.closed name src, .created name src]) := by
  have hfind := find?_of_filter_eq_singleton (connMatches name src) conns ex hfilter
  have hexmem : ex ∈ conns.filter (connMatches name src) := by
    rw [hfilter]; exact List.mem_singleton_self ex
  have hm := (connMatches_iff name src ex).mp (List.mem_filter.mp hexmem).2
  have hclosedEvents : (factoryCloseConnection conns name (some src) false).2 =
      [FactoryEvent.closed name src] := by
    have hrepr : (factoryCloseConnection conns name (some src) false).2 =
        (conns.filter (connMatches name src)).map
          (fun c => FactoryEvent.closed c.server.name c.server.source) := rfl
    rw [hrepr, hfilter]
    dsimp only [List.map]
    rw [hm.1, hm.2]
  unfold processEntry
  rw [hval, hfind]
  dsimp only
  rw [if_pos hne]
  by_cases hdis : isDisabledCfg v = true
  · rw [if_pos hdis, if_pos hdis]
    exact hclosedEvents
  · rw [if_neg hdis, if_neg hdis]
    obtain ⟨p, hp⟩ := create_validated_ok ivu cwd raw v
      (factoryCloseConnection conns name (some src) false).1 name src (oc name src) now
      hval hivu
    obtain ⟨cs', es'⟩ := p
    rw [hp]
    dsimp only
    rw [hclosedEvents,
        (factoryCreate_ok _ name v src (oc name src) now cs' es' hp).2]
    rfl

end Mcp

namespace Mcp

/-- Reconciling a config whose entry for a live server differs from the
stored config only in the non-connection fields closes nothing and
creates nothing for that server, and patches its stored config in
place. -/
theorem updateSC_nonrelevant (ivu : String → Bool) (cwd : String)
    (oc : String → ConfigSource → ConnectOutcome) (now : Nat) (src : ConfigSource)
    (conns : List McpConnection) (configs : List (String × RawConfig))
    (name : String) (raw : RawConfig) (v : ServerConfig) (ex : McpConnection)
    (hk : (configs.map Prod.fst).Nodup)
    (hmem : (name, raw) ∈ configs)
    (hval : validateServerConfig ivu cwd raw = some v)
    (hu : uniqueKey conns) (hex : ex ∈ conns)
    (hn : ex.server.name = name) (hs : ex.server.source = src)
    (heq : stripNonConnectionFields ex.server.config = stripNonConnectionFields v) :
    FactoryEvent.closed name src ∉
      (updateServerConnections ivu cwd oc now conns configs src).2 ∧
    FactoryEvent.created name src ∉
      (updateServerConnections ivu cwd oc now conns configs src).2 ∧
    ((updateServerConnections ivu cwd oc now conns configs src).1).filter
        (connMatches name src) =
      [{ ex with server := { ex.server with config := v } }] := by
  obtain ⟨pre, post, rfl⟩ := List.append_of_mem hmem
  have hmapfst : (pre ++ (name, raw) :: post).map Prod.fst =
      pre.map Prod.fst ++ name :: post.map Prod.fst := by simp
  rw [hmapfst] at hk
  obtain ⟨hnd1, hnd2, hdisj⟩ := List.nodup_append.mp hk
  have hpost : name ∉ post.map Prod.fst := (List.nodup_cons.mp hnd2).1
  have hpre : name ∉ pre.map Prod.fst := fun hmem1 => hdisj hmem1 (List.mem_cons_self _ _)
  have hmemCS : name ∈ (pre ++ (name, raw) :: post).map Prod.fst := by
    rw [hmapfst]
    exact List.mem_append_right _ (List.mem_cons_self _ _)
  have hnClose : ∀ n' ∈ ((conns.filter (fun c => decide (c.server.source = src))).map (fun c => c.server.name)),
      (((pre ++ (name, raw) :: post).map Prod.fst)).contains n' = false →
      ∀ c : McpConnection, c.server.name = n' → c.server.source = src →
        connMatches name src c = false := by
    intro n' hn1 hcont c hcn hcs
    apply connMatches_false_of_ne
    rw [hcn]
    intro heq1
    subst heq1
    rw [contains_of_mem _ _ hmemCS] at hcont
    cases hcont
  have hnPre : ∀ p ∈ pre, ∀ c : McpConnection, c.server.name = p.1 →
      c.server.source = src → connMatches name src c = false := by
    intro p hp c hcn hcs
    apply connMatches_false_of_ne
    rw [hcn]
    intro hq
    exact hpre (hq ▸ List.mem_map_of_mem Prod.fst hp)
  have hnPost : ∀ p ∈ post, ∀ c : McpConnection, c.server.name = p.1 →
      c.server.source = src → connMatches name src c = false := by
    intro p hp c hcn hcs
    apply connMatches_false_of_ne
    rw [hcn]
    intro hq
    exact hpost (hq ▸ List.mem_map_of_mem Prod.fst hp)
  have hfilter0 := filter_key_singleton name src conns ex hu hex hn hs
  have hC := closeDeletedLoop_frame (connMatches name src) ((pre ++ (name, raw) :: post).map Prod.fst) src ((conns.filter (fun c => decide (c.server.source = src))).map (fun c => c.server.name)) conns hnClose
  have hS0 : ((closeDeletedLoop ((pre ++ (name, raw) :: post).map Prod.fst) src ((conns.filter (fun c => decide (c.server.source = src))).map (fun c => c.server.name)) conns).1).filter (connMatches name src) = [ex] := by
    rw [hC.1, hfilter0]
  have hP := updateEntriesLoop_frame (connMatches name src) ivu cwd oc now src pre
    (closeDeletedLoop ((pre ++ (name, raw) :: post).map Prod.fst) src ((conns.filter (fun c => decide (c.server.source = src))).map (fun c => c.server.name)) conns).1 (keyOnly_connMatches name src) hnPre
  have hS1 : ((updateEntriesLoop ivu cwd oc now src pre (closeDeletedLoop ((pre ++ (name, raw) :: post).map Prod.fst) src ((conns.filter (fun c => decide (c.server.source = src))).map (fun c => c.server.name)) conns).1).1).filter (connMatches name src) = [ex] := by
    rw [hP.1, hS0]
  have hT := processEntry_target_unchanged ivu cwd oc now src name raw
    (updateEntriesLoop ivu cwd oc now src pre (closeDeletedLoop ((pre ++ (name, raw) :: post).map Prod.fst) src ((conns.filter (fun c => decide (c.server.source = src))).map (fun c => c.server.name)) conns).1).1 ex v hval hS1 heq
  have hQ := updateEntriesLoop_frame (connMatches name src) ivu cwd oc now src post
    (processEntry ivu cwd oc now src name raw (updateEntriesLoop ivu cwd oc now src pre (closeDeletedLoop ((pre ++ (name, raw) :: post).map Prod.fst) src ((conns.filter (fun c => decide (c.server.source = src))).map (fun c => c.server.name)) conns).1).1).1 (keyOnly_connMatches name src) hnPost
  rw [updateSC_split]
  refine ⟨?_, ?_, ?_⟩
  · intro hcon
    rcases List.mem_append.mp hcon with h0 | h123
    · obtain ⟨n', hn1, hcont, hev⟩ := hC.2 _ h0
      injection hev with e1 e2
      rw [← e1, contains_of_mem _ _ hmemCS] at hcont
      cases hcont
    rcases List.mem_append.mp h123 with h1 | h23
    · obtain ⟨q, hq, hor⟩ := hP.2 _ h1
      rcases hor with hev | hev
      · injection hev with e1 e2
        exact hpre (e1 ▸ List.mem_map_of_mem Prod.fst hq)
      · cases hev
    rcases List.mem_append.mp h23 with h2 | h3
    · rw [hT.1] at h2
      cases h2
    · obtain ⟨q, hq, hor⟩ := hQ.2 _ h3
      rcases hor with hev | hev
      · injection hev with e1 e2
        exact hpost (e1 ▸ List.mem_map_of_mem Prod.fst hq)
      · cases hev
  · intro hcon
    rcases List.mem_append.mp hcon with h0 | h123
    · obtain ⟨n', hn1, hcont, hev⟩ := hC.2 _ h0
      cases hev
    rcases List.mem_append.mp h123 with h1 | h23
    · obtain ⟨q, hq, hor⟩ := hP.2 _ h1
      rcases hor with hev | hev
      · cases hev
      · injection hev with e1 e2
        exact hpre (e1 ▸ List.mem_map_of_mem Prod.fst hq)
    rcases List.mem_append.mp h23 with h2 | h3
    · rw [hT.1] at h2
      cases h2
    · obtain ⟨q, hq, hor⟩ := hQ.2 _ h3
      rcases hor with hev | hev
      · cases hev
      · injection hev with e1 e2
        exact hpost (e1 ▸ List.mem_map_of_mem Prod.fst hq)
  · rw [hQ.1, hT.2]

/-- Reconciling a config whose entry for a live server differs from the
stored config in a connection-relevant field closes that server's
connection and recreates it exactly when the new config is not
disabled. -/
theorem updateSC_relevant (ivu : String → Bool) (cwd : String)
    (oc : String → ConfigSource → ConnectOutcome) (now : Nat) (src : ConfigSource)
    (conns : List McpConnection) (configs : List (String × RawConfig))
    (name : String) (raw : RawConfig) (v : ServerConfig) (ex : McpConnection)
    (hk : (configs.map Prod.fst).Nodup)
    (hmem : (name, raw) ∈ configs)
    (hval : validateServerConfig ivu cwd raw = some v)
    (hu : uniqueKey conns) (hex : ex ∈ conns)
    (hn : ex.server.name = name) (hs : ex.server.source = src)
    (hne : stripNonConnectionFields ex.server.config ≠ stripNonConnectionFields v)
    (hivu : ivu "" = false) :
    FactoryEvent.closed name src ∈
      (updateServerConnections ivu cwd oc now conns configs src).2 ∧
    (isDisabledCfg v = false → FactoryEvent.created name src ∈
      (updateServerConnections ivu cwd oc now conns configs src).2) ∧
    (isDisabledCfg v = true → FactoryEvent.created name src ∉
      (updateServerConnections ivu cwd oc now conns configs src).2) := by
  obtain ⟨pre, post, rfl⟩ := List.append_of_mem hmem
  have hmapfst : (pre ++ (name, raw) :: post).map Prod.fst =
      pre.map Prod.fst ++ name :: post.map Prod.fst := by simp
  rw [hmapfst] at hk
  obtain ⟨hnd1, hnd2, hdisj⟩ := List.nodup_append.mp hk
  have hpost : name ∉ post.map Prod.fst := (List.nodup_cons.mp hnd2).1
  have hpre : name ∉ pre.map Prod.fst := fun hmem1 => hdisj hmem1 (List.mem_cons_self _ _)
  have hmemCS : name ∈ (pre ++ (name, raw) :: post).map Prod.fst := by
    rw [hmapfst]
    exact List.mem_append_right _ (List.mem_cons_self _ _)
  have hnClose : ∀ n' ∈ ((conns.filter (fun c => decide (c.server.source = src))).map (fun c => c.server.name)),
      (((pre ++ (name, raw) :: post).map Prod.fst)).contains n' = false →
      ∀ c : McpConnection, c.server.name = n' → c.server.source = src →
        connMatches name src c = false := by
    intro n' hn1 hcont c hcn hcs
    apply connMatches_false_of_ne
    rw [hcn]
    intro heq1
    subst heq1
    rw [contains_of_mem _ _ hmemCS] at hcont
    cases hcont
  have hnPre : ∀ p ∈ pre, ∀ c : McpConnection, c.server.name = p.1 →
      c.server.source = src → connMatches name src c = false := by
    intro p hp c hcn hcs
    apply connMatches_false_of_ne
    rw [hcn]
    intro hq
    exact hpre (hq ▸ List.mem_map_of_mem Prod.fst hp)
  have hnPost : ∀ p ∈ post, ∀ c : McpConnection, c.server.name = p.1 →
      c.server.source = src → connMatches name src c = false := by
    intro p hp c hcn hcs
    apply connMatches_false_of_ne
    rw [hcn]
    intro hq
    exact hpost (hq ▸ List.mem_map_of_mem Prod.fst hp)
  have hfilter0 := filter_key_singleton name src conns ex hu hex hn hs
  have hC := closeDeletedLoop_frame (connMatches name src) ((pre ++ (name, raw) :: post).map Prod.fst) src ((conns.filter (fun c => decide (c.server.source = src))).map (fun c => c.server.name)) conns hnClose
  have hS0 : ((closeDeletedLoop ((pre ++ (name, raw) :: post).map Prod.fst) src ((conns.filter (fun c => decide (c.server.source = src))).map (fun c => c.server.name)) conns).1).filter (connMatches name src) = [ex] := by
    rw [hC.1, hfilter0]
  have hP := updateEntriesLoop_frame (connMatches name src) ivu cwd oc now src pre
    (closeDeletedLoop ((pre ++ (name, raw) :: post).map Prod.fst) src ((conns.filter (fun c => decide (c.server.source = src))).map (fun c => c.server.name)) conns).1 (keyOnly_connMatches name src) hnPre
  have hS1 : ((updateEntriesLoop ivu cwd oc now src pre (closeDeletedLoop ((pre ++ (name, raw) :: post).map Prod.fst) src ((conns.filter (fun c => decide (c.server.source = src))).map (fun c => c.server.name)) conns).1).1).filter (connMatches name src) = [ex] := by
    rw [hP.1, hS0]
  have hT := processEntry_target_changed ivu cwd oc now src name raw
    (updateEntriesLoop ivu cwd oc now src pre (closeDeletedLoop ((pre ++ (name, raw) :: post).map Prod.fst) src ((conns.filter (fun c => decide (c.server.source = src))).map (fun c => c.server.name)) conns).1).1 ex v hval hS1 hne hivu
  have hQ := updateEntriesLoop_frame (connMatches name src) ivu cwd oc now src post
    (processEntry ivu cwd oc now src name raw (updateEntriesLoop ivu cwd oc now src pre (closeDeletedLoop ((pre ++ (name, raw) :: post).map Prod.fst) src ((conns.filter (fun c => decide (c.server.source = src))).map (fun c => c.server.name)) conns).1).1).1 (keyOnly_connMatches name src) hnPost
  rw [updateSC_split]
  refine ⟨?_, ?_, ?_⟩
  · apply List.mem_append_right
    apply List.mem_append_right
    apply List.mem_append_left
    rw [hT]
    split_ifs
    · exact List.mem_singleton_self _
    · exact List.mem_cons_self _ _
  · intro hdis
    apply List.mem_append_right
    apply List.mem_append_right
    apply List.mem_append_left
    rw [hT, if_neg (by rw [hdis]; exact fun hc => nomatch hc)]
    exact List.mem_cons_of_mem _ (List.mem_singleton_self _)
  · intro hdis hcon
    rcases List.mem_append.mp hcon with h0 | h123
    · obtain ⟨n', hn1, hcont, hev⟩ := hC.2 _ h0
      cases hev
    rcases List.mem_append.mp h123 with h1 | h23
    · obtain ⟨q, hq, hor⟩ := hP.2 _ h1
      rcases hor with hev | hev
      · cases hev
      · injection hev with e1 e2
        exact hpre (e1 ▸ List.mem_map_of_mem Prod.fst hq)
    rcases List.mem_append.mp h23 with h2 | h3
    · rw [hT, if_pos hdis] at h2
      rcases List.mem_singleton.mp h2 with hev
      cases hev
    · obtain ⟨q, hq, hor⟩ := hQ.2 _ h3
      rcases hor with hev | hev
      · cases hev
      · injection hev with e1 e2
        exact hpost (e1 ▸ List.mem_map_of_mem Prod.fst hq)

end Mcp

namespace Mcp

/-- C1: for a server with a live connection, reconciling with a new
config that differs from the stored config only in the timeout and/or
alwaysAllow fields closes nothing and creates nothing for that server
and overwrites the live record's stored config in place with the new
validated config; whereas a change to a connection-relevant field closes
the connection and, exactly when the new config is not disabled,
recreates it. -/
theorem updateServerConnections_relevant_vs_nonrelevant
    (ivu : String → Bool) (cwd : String) (oc : String → ConfigSource → ConnectOutcome)
    (now : Nat) (src : ConfigSource)
    (connsA : List McpConnection) (configsA : List (String × RawConfig))
    (nameA : String) (rawA : RawConfig) (vA : ServerConfig) (exA : McpConnection)
    (connsB : List McpConnection) (configsB : List (String × RawConfig))
    (nameB : String) (rawB : RawConfig) (vB : ServerConfig) (exB : McpConnection)
    (hkA : (configsA.map Prod.fst).Nodup)
    (hmemA : (nameA, rawA) ∈ configsA)
    (hvalA : validateServerConfig ivu cwd rawA = some vA)
    (huA : uniqueKey connsA) (hexA : exA ∈ connsA)
    (hnA : exA.server.name = nameA) (hsA : exA.server.source = src)
    (heq : stripNonConnectionFields exA.server.config = stripNonConnectionFields vA)
    (hkB : (configsB.map Prod.fst).Nodup)
    (hmemB : (nameB, rawB) ∈ configsB)
    (hvalB : validateServerConfig ivu cwd rawB = some vB)
    (huB : uniqueKey connsB) (hexB : exB ∈ connsB)
    (hnB : exB.server.name = nameB) (hsB : exB.server.source = src)
    (hneB : stripNonConnectionFields exB.server.config ≠ stripNonConnectionFields vB)
    (hivu : ivu "" = false) :
    (FactoryEvent.closed nameA src ∉
        (updateServerConnections ivu cwd oc now connsA configsA src).2 ∧
     FactoryEvent.created nameA src ∉
        (updateServerConnections ivu cwd oc now connsA configsA src).2 ∧
     ((updateServerConnections ivu cwd oc now connsA configsA src).1).filter
         (connMatches nameA src) =
       [{ exA with server := { exA.server with config := vA } }]) ∧
    (FactoryEvent.closed nameB src ∈
        (updateServerConnections ivu cwd oc now connsB configsB src).2 ∧
     (isDisabledCfg vB = false → FactoryEvent.created nameB src ∈
        (updateServerConnections ivu cwd oc now connsB configsB src).2) ∧
     (isDisabledCfg vB = true → FactoryEvent.created nameB src ∉
        (updateServerConnections ivu cwd oc now connsB configsB src).2)) :=
  ⟨updateSC_nonrelevant ivu cwd oc now src connsA configsA nameA rawA vA exA
     hkA hmemA hvalA huA hexA hnA hsA heq,
   updateSC_relevant ivu cwd oc now src connsB configsB nameB rawB vB exB
     hkB hmemB hvalB huB hexB hnB hsB hneB hivu⟩

/-- Stored stdio config of the C1 witness's unchanged server. -/
def w1vOld : ServerConfig := { type := "stdio", command := some "run", cwd := some "/w" }

/-- New raw config differing only in timeout, for the C1 witness. -/
def w1raw : RawConfig := { command := some "run", timeout := some 30 }

/-- Validated form of `w1raw`. -/
def w1v : ServerConfig :=
  { type := "stdio", command := some "run", cwd := some "/w", timeout := some 30 }

/-- Live connection of the C1 witness's unchanged server. -/
def w1ex : McpConnection :=
  { server := { name := "a", config := w1vOld, status := .connected, source := .global } }

/-- Stored stdio config of the C1 witness's changed server. -/
def w1vBold : ServerConfig := { type := "stdio", command := some "old", cwd := some "/w" }

/-- New raw config with a changed command, for the C1 witness. -/
def w1rawB : RawConfig := { command := some "new" }

/-- Validated form of `w1rawB`. -/
def w1vB : ServerConfig := { type := "stdio", command := some "new", cwd := some "/w" }

/-- Live connection of the C1 witness's changed server. -/
def w1exB : McpConnection :=
  { server := { name := "b", config := w1vBold, status := .connected, source := .global } }

/-- Witness for C1: a timeout-only change patches in place with no
events; a command change closes and recreates. -/
theorem updateServerConnections_relevant_vs_nonrelevant_witness :
    (FactoryEvent.closed "a" .global ∉
        (updateServerConnections (fun _ => false) "/w" (fun _ _ => .failure "x") 0
          [w1ex] [("a", w1raw)] .global).2 ∧
     FactoryEvent.created "a" .global ∉
        (updateServerConnections (fun _ => false) "/w" (fun _ _ => .failure "x") 0
          [w1ex] [("a", w1raw)] .global).2 ∧
     ((updateServerConnections (fun _ => false) "/w" (fun _ _ => .failure "x") 0
          [w1ex] [("a", w1raw)] .global).1).filter (connMatches "a" .global) =
       [{ w1ex with server := { w1ex.server with config := w1v } }]) ∧
    (FactoryEvent.closed "b" .global ∈
        (updateServerConnections (fun _ => false) "/w" (fun _ _ => .failure "x") 0
          [w1exB] [("b", w1rawB)] .global).2 ∧
     (isDisabledCfg w1vB = false → FactoryEvent.created "b" .global ∈
        (updateServerConnections (fun _ => false) "/w" (fun _ _ => .failure "x") 0
          [w1exB] [("b", w1rawB)] .global).2) ∧
     (isDisabledCfg w1vB = true → FactoryEvent.created "b" .global ∉
        (updateServerConnections (fun _ => false) "/w" (fun _ _ => .failure "x") 0
          [w1exB] [("b", w1rawB)] .global).2)) :=
  updateServerConnections_relevant_vs_nonrelevant
    (fun _ => false) "/w" (fun _ _ => .failure "x") 0 .global
    [w1ex] [("a", w1raw)] "a" w1raw w1v w1ex
    [w1exB] [("b", w1rawB)] "b" w1rawB w1vB w1exB
    (by decide) (List.mem_singleton_self _) rfl (by decide)
    (List.mem_singleton_self _) rfl rfl (by decide)
    (by decide) (List.mem_singleton_self _) rfl (by decide)
    (List.mem_singleton_self _) rfl rfl (by decide) rfl

end Mcp

namespace Mcp

/-- Reconciling against an empty name list closes every connection of
the source whose name the list of currently-live names covers. -/
theorem closeLoop_complete (src : ConfigSource) (names : List String)
    (conns : List McpConnection)
    (hcover : ∀ c ∈ conns, c.server.source = src → c.server.name ∈ names) :
    ((closeDeletedLoop [] src names conns).1).filter
      (fun c => decide (c.server.source = src)) = [] := by
  induction names generalizing conns with
  | nil =>
    rw [List.filter_eq_nil_iff]
    intro c hc hdec
    exact absurd (hcover c hc (of_decide_eq_true hdec)) (List.not_mem_nil _)
  | cons n rest ih =>
    unfold closeDeletedLoop
    rw [if_neg (by simp)]
    dsimp only
    apply ih
    intro c hc hsrc
    have hrepr : (factoryCloseConnection conns n (some src) false).1 =
        conns.filter (fun c => !(serverMatches n (some src) c.server)) := rfl
    rw [hrepr] at hc
    obtain ⟨hc0, hpred⟩ := List.mem_filter.mp hc
    rcases List.mem_cons.mp (hcover c hc0 hsrc) with heq1 | hrest
    · exfalso
      have hsm : serverMatches n (some src) c.server = true :=
        (serverMatches_some_iff n src c.server).mpr ⟨heq1, hsrc⟩
      rw [hsm] at hpred
      cases hpred
    · exact hrest

/-- `updateServerConnections` with an empty config map leaves no live
connection for that source. -/
theorem updateSC_empty (ivu : String → Bool) (cwd : String)
    (oc : String → ConfigSource → ConnectOutcome) (now : Nat)
    (conns : List McpConnection) (src : ConfigSource) :
    ((updateServerConnections ivu cwd oc now conns [] src).1).filter
      (fun c => decide (c.server.source = src)) = [] := by
  unfold updateServerConnections
  dsimp only
  apply closeLoop_complete
  intro c hc hsrc
  exact List.mem_map_of_mem _ (List.mem_filter.mpr ⟨hc, decide_eq_true hsrc⟩)

/-- `updateServerConnections` for one source never touches the other
source's connections. -/
theorem updateSC_other_source (ivu : String → Bool) (cwd : String)
    (oc : String → ConfigSource → ConnectOutcome) (now : Nat)
    (conns : List McpConnection) (configs : List (String × RawConfig))
    (src : ConfigSource) :
    ((updateServerConnections ivu cwd oc now conns configs src).1).filter
      (fun c => !decide (c.server.source = src)) =
    conns.filter (fun c => !decide (c.server.source = src)) := by
  have hkey : keyOnly (fun c => !decide (c.server.source = src)) := by
    intro c₁ c₂ h1 h2
    dsimp only
    rw [h2]
  have hnc : ∀ (n' : String), ∀ c : McpConnection, c.server.name = n' →
      c.server.source = src → (!decide (c.server.source = src)) = false := by
    intro n' c hcn hcs
    rw [decide_eq_true hcs]
    rfl
  unfold updateServerConnections
  dsimp only
  rw [(updateEntriesLoop_frame (fun c => !decide (c.server.source = src)) ivu cwd oc
        now src configs _ hkey (fun p _ => hnc p.1)).1,
      (closeDeletedLoop_frame (fun c => !decide (c.server.source = src)) _ src _ conns
        (fun n' _ _ => hnc n')).1]

end Mcp

namespace Mcp

/-- C8 (amended): `deleteServer(serverName, source)` removes the entry
from the resolved source's config file and then closes every live
connection for that source — its final reconciliation pass runs against
an empty config map — leaving the source's live set empty; connections
of the other source are untouched, and no server with the deleted
(name, source) key appears in `getAllServers()` afterwards. -/
theorem deleteServer_closes_source (ivu : String → Bool) (cwd : String)
    (oc : String → ConfigSource → ConnectOutcome) (now : Nat)
    (fileConfigs : List (String × RawConfig)) (conns : List McpConnection)
    (serverName : String) (source? : Option ConfigSource)
    (hmem : serverName ∈ fileConfigs.map Prod.fst) :
    ((deleteServer ivu cwd oc now fileConfigs conns serverName source?).map
        (fun r => r.2.1.filter
          (fun c => decide (c.server.source = source?.getD .global)))) = .ok [] ∧
    ((deleteServer ivu cwd oc now fileConfigs conns serverName source?).map
        (fun r => r.2.1.filter
          (fun c => !decide (c.server.source = source?.getD .global)))) =
      .ok (conns.filter (fun c => !decide (c.server.source = source?.getD .global))) ∧
    ((deleteServer ivu cwd oc now fileConfigs conns serverName source?).map
        (fun r => (getAllServers r.2.1).filter
          (fun s => s.name == serverName && decide (s.source = source?.getD .global)))) =
      .ok [] := by
  obtain ⟨pr, hpr, hfst⟩ := List.mem_map.mp hmem
  have hsome : (fileConfigs.find? (fun p => p.1 == serverName)).isSome = true :=
    List.find?_isSome.mpr ⟨pr, hpr, by rw [hfst]; exact beq_self_eq_true serverName⟩
  have hcond : ¬ ((fileConfigs.find? (fun p => p.1 == serverName)).isNone = true) := by
    cases hf : fileConfigs.find? (fun p => p.1 == serverName) with
    | none => rw [hf] at hsome; cases hsome
    | some q => exact fun hc => nomatch hc
  unfold deleteServer
  rw [if_neg hcond]
  dsimp only [Except.map]
  refine ⟨?_, ?_, ?_⟩
  · rw [updateSC_empty]
  · rw [updateSC_other_source, updateSC_other_source]
  · have hempty := updateSC_empty ivu cwd oc now
      (updateServerConnections ivu cwd oc now conns
        (fileConfigs.filter (fun p => p.1 != serverName)) (source?.getD .global)).1
      (source?.getD .global)
    congr 1
    rw [List.filter_eq_nil_iff]
    intro s hsmem hp
    obtain ⟨c, hcmem, hcs⟩ := List.mem_map.mp hsmem
    have hsrc : decide (c.server.source = source?.getD .global) = true := by
      have := (Bool.and_eq_true _ _).mp (hcs ▸ hp)
      exact this.2
    have : c ∈ (updateServerConnections ivu cwd oc now
        (updateServerConnections ivu cwd oc now conns
          (fileConfigs.filter (fun p => p.1 != serverName)) (source?.getD .global)).1
        [] (source?.getD .global)).1.filter
          (fun c => decide (c.server.source = source?.getD .global)) :=
      List.mem_filter.mpr ⟨hcmem, hsrc⟩
    rw [hempty] at this
    cases this

/-- Raw config of server "a", for the C8 counterexample and witness. -/
def c8rawA : RawConfig := { command := some "cmdA" }

/-- Raw config of server "b", for the C8 counterexample and witness. -/
def c8rawB : RawConfig := { command := some "cmdB" }

/-- Stored validated config of server "a". -/
def c8vA : ServerConfig := { type := "stdio", command := some "cmdA", cwd := some "/w" }

/-- Stored validated config of server "b". -/
def c8vB : ServerConfig := { type := "stdio", command := some "cmdB", cwd := some "/w" }

/-- Live connection of server "a" (global source). -/
def c8connA : McpConnection :=
  { server := { name := "a", config := c8vA, status := .connected, source := .global } }

/-- Live connection of server "b" (global source). -/
def c8connB : McpConnection :=
  { server := { name := "b", config := c8vB, status := .connected, source := .global } }

/-- C8 counterexample: deleting server "a" also destroys server "b"'s
live connection — the final live list is empty, not the previous list
minus the deleted server — because `deleteServer` reconciles against an
empty config map for the whole source. -/
theorem deleteServer_counterexample :
    c8connB ∈ [c8connA, c8connB] ∧
    (deleteServer (fun _ => false) "/w" (fun _ _ => .failure "x") 0
        [("a", c8rawA), ("b", c8rawB)] [c8connA, c8connB] "a" none).map
      (fun r => r.2.1) = .ok ([] : List McpConnection) :=
  ⟨by decide, rfl⟩

/-- Witness for the amended C8 theorem at the two-server state. -/
theorem deleteServer_closes_source_witness :
    ((deleteServer (fun _ => false) "/w" (fun _ _ => .failure "x") 0
        [("a", c8rawA), ("b", c8rawB)] [c8connA, c8connB] "a" none).map
        (fun r => r.2.1.filter
          (fun c => decide (c.server.source = (none : Option ConfigSource).getD .global)))) =
      .ok [] ∧
    ((deleteServer (fun _ => false) "/w" (fun _ _ => .failure "x") 0
        [("a", c8rawA), ("b", c8rawB)] [c8connA, c8connB] "a" none).map
        (fun r => r.2.1.filter
          (fun c => !decide (c.server.source = (none : Option ConfigSource).getD .global)))) =
      .ok ([c8connA, c8connB].filter
        (fun c => !decide (c.server.source = (none : Option ConfigSource).getD .global))) ∧
    ((deleteServer (fun _ => false) "/w" (fun _ _ => .failure "x") 0
        [("a", c8rawA), ("b", c8rawB)] [c8connA, c8connB] "a" none).map
        (fun r => (getAllServers r.2.1).filter
          (fun s => s.name == "a" &&
            decide (s.source = (none : Option ConfigSource).getD .global)))) = .ok [] :=
  deleteServer_closes_source (fun _ => false) "/w" (fun _ _ => .failure "x") 0
    [("a", c8rawA), ("b", c8rawB)] [c8connA, c8connB] "a" none (by decide)

end Mcp
